import Mathlib

/-!
Verification of the ICS → Google Calendar importer (src/gas.ts) against its
natural-language specification.

The development shallowly embeds the script's core: ICS line unfolding and
parsing, the date/date-time decoders, deduplication, reconciliation
(date-window inference and key-based filtering) and the error-ledger retry
merge.  JavaScript `Date` values are modelled as epoch milliseconds
(`Option Int`, with `none` standing for an Invalid Date, i.e. a NaN time
value).  The script timezone is modelled as UTC (offset zero); the code
never mixes the local and UTC interpretations inside any property verified
here.  The ECMAScript ±8.64e15 ms range clamp is not modelled.
-/

namespace IcsImport

/-! ## Proleptic Gregorian civil-date arithmetic

Model of the ECMAScript `Date` internals (`MakeDay` / date getters):
conversions between a day number (days since 1970-01-01) and a civil
triple (year, month 1..12, day-of-month). -/

/-- Days since the epoch 1970-01-01 of the civil date `(y, m, d)`.
Requires `1 ≤ m ≤ 12`; linear in `d`, so out-of-range `d` extrapolates,
exactly as ECMAScript `MakeDay` does. -/
def daysFromCivil (y m d : Int) : Int :=
  let yy := y - (if m ≤ 2 then 1 else 0)
  let era := yy / 400
  let yoe := yy - era * 400
  let mp := if m ≤ 2 then m + 9 else m - 3
  let doy := (153 * mp + 2) / 5 + d - 1
  let doe := yoe * 365 + yoe / 4 - yoe / 100 + doy
  era * 146097 + doe - 719468

/-- Day number, within a 400-year era, on which era-year `yoe` starts. -/
def yearStartInEra (yoe : Int) : Int := 365 * yoe + yoe / 4 - yoe / 100

/-- 400-year era of a shifted day number. -/
def eraOf (zz : Int) : Int := zz / 146097

/-- Day-of-era (0 ≤ · ≤ 146096) of a shifted day number. -/
def doeOf (zz : Int) : Int := zz - eraOf zz * 146097

/-- Year of the era (0 ≤ · ≤ 399) containing day-of-era `doe`: the
estimate `doe / 366` is corrected upward by at most one step and clamped
to the era. -/
def yoeOf (doe : Int) : Int :=
  let y0 := doe / 366
  let y1 := if yearStartInEra (y0 + 1) ≤ doe then y0 + 1 else y0
  if 400 ≤ y1 then 399 else y1

/-- Shifted month index (March = 0, ..., February = 11) of a day-of-year. -/
def mpOf (doy : Int) : Int := (5 * doy + 2) / 153

/-- Civil date `(year, month 1..12, day-of-month)` of a day number. -/
def civilFromDays (z : Int) : Int × Int × Int :=
  let era := eraOf (z + 719468)
  let doe := doeOf (z + 719468)
  let yoe := yoeOf doe
  let doy := doe - yearStartInEra yoe
  let mp := mpOf doy
  let d := doy - (153 * mp + 2) / 5 + 1
  let m := if mp < 10 then mp + 3 else mp - 9
  (if m ≤ 2 then yoe + era * 400 + 1 else yoe + era * 400, m, d)

/-- Gregorian leap-year test. -/
def isLeapYear (y : Int) : Bool :=
  (decide (y % 4 = 0) && !(decide (y % 100 = 0))) || decide (y % 400 = 0)

/-- Length of month `m` of year `y` (months numbered 1..12). -/
def daysInMonth (y m : Int) : Int :=
  if m = 2 then (if isLeapYear y then 29 else 28)
  else if m = 4 ∨ m = 6 ∨ m = 9 ∨ m = 11 then 30 else 31

/-! ## JavaScript string primitives

Models of the string methods the script uses.  Strings are manipulated
through their underlying character lists.  `toLowerCase` and the
whitespace classes are modelled on their ASCII parts, which is all the
script's inputs exercise. -/

/-- Characters treated as whitespace by the models of JS `trim` and
`parseInt` (ASCII part of the JS WhiteSpace / LineTerminator classes). -/
def isJsWhitespace (c : Char) : Bool := c = ' ' || c = '\t' || c = '\n' || c = '\r'

/-- Model of JS `String.prototype.trim`. -/
def jsTrim (s : String) : String :=
  String.mk (((s.data.dropWhile isJsWhitespace).reverse.dropWhile isJsWhitespace).reverse)

/-- Model of JS `String.prototype.startsWith`. -/
def jsStartsWith (s p : String) : Bool := p.data.isPrefixOf s.data

/-- Model of JS `String.prototype.endsWith`. -/
def jsEndsWith (s p : String) : Bool := p.data.isSuffixOf s.data

/-- Model of JS `s.substring(i)` (from `i` to the end, clamping). -/
def jsSubstringFrom (s : String) (i : Nat) : String := String.mk (s.data.drop i)

/-- Model of JS `s.substring(i, j)` (clamping, swapping when `i > j`). -/
def jsSubstring (s : String) (i j : Nat) : String :=
  String.mk ((s.data.take (max i j)).drop (min i j))

/-- Model of JS `String.prototype.toLowerCase` (ASCII letters). -/
def jsToLower (s : String) : String := String.mk (s.data.map Char.toLower)

/-- Model of JS `String.prototype.padStart`. -/
def jsPadStart (s : String) (n : Nat) (c : Char) : String :=
  String.mk (List.replicate (n - s.data.length) c ++ s.data)

/-- Split a character list at every occurrence of the character `c`
(model of JS `split` with a one-character separator: the result always
has one more part than there are separators). -/
def splitOnChar (c : Char) : List Char → List (List Char)
  | [] => [[]]
  | x :: xs =>
    match splitOnChar c xs with
    | [] => [[]]
    | r :: rs => if x = c then [] :: r :: rs else (x :: r) :: rs

/-- Model of JS `s.split(sep)` for a one-character separator. -/
def jsSplit (s : String) (c : Char) : List String := (splitOnChar c s.data).map String.mk

/-- Split a character list at every LF or CRLF (model of the script's
`content.split(/\r?\n/)`; a lone CR does not split). -/
def splitLinesChars : List Char → List (List Char)
  | [] => [[]]
  | '\n' :: xs => [] :: splitLinesChars xs
  | '\r' :: '\n' :: xs => [] :: splitLinesChars xs
  | x :: xs =>
    match splitLinesChars xs with
    | [] => [[]]
    | r :: rs => (x :: r) :: rs

/-- Model of the script's `content.split(/\r?\n/)`. -/
def jsSplitLines (s : String) : List String := (splitLinesChars s.data).map String.mk

/-- Value of an ASCII digit character, `none` otherwise. -/
def digitVal (c : Char) : Option Nat :=
  if '0' ≤ c ∧ c ≤ '9' then some (c.toNat - 48) else none

/-- Decimal value of a digit string. -/
def digitsVal (l : List Char) : Nat :=
  l.foldl (fun acc c => acc * 10 + (digitVal c).getD 0) 0

/-- Decimal value of the longest digit prefix; `none` when there is no
leading digit. -/
def parseDigitPrefix (l : List Char) : Option Nat :=
  let digits := l.takeWhile (fun c => (digitVal c).isSome)
  if digits.isEmpty then none else some (digitsVal digits)

/-- Model of JS `parseInt(s)` in base 10: skip leading whitespace, then an
optional sign, then the longest digit prefix; `none` models NaN. -/
def jsParseInt (s : String) : Option Int :=
  let l := s.data.dropWhile isJsWhitespace
  if l.head? = some '-' then (parseDigitPrefix l.tail).map (fun n => -(n : Int))
  else if l.head? = some '+' then (parseDigitPrefix l.tail).map (fun n => (n : Int))
  else (parseDigitPrefix l).map (fun n => (n : Int))

/-- Decimal digits of `n`. -/
def natToString (n : Nat) : String := String.mk (Nat.toDigits 10 n)

/-- Model of JS `String(i)` for an integral number. -/
def jsIntToString (i : Int) : String :=
  if i < 0 then "-" ++ natToString (0 - i).toNat else natToString i.toNat

/-- Model of JS number-to-string coercion for an `Option Int` number
(`none` is NaN, printed as `NaN`). -/
def jsNumToString : Option Int → String
  | none => "NaN"
  | some i => jsIntToString i

/-! ## JavaScript `Date` model

A `Date` is its time value: epoch milliseconds, `none` for an Invalid
Date (NaN time value).  The script timezone is modelled as UTC, so the
local-time and UTC accessors coincide; the ±8.64e15 ms `TimeClip` range
is not modelled. -/

/-- A JS `Date` value: epoch milliseconds, or `none` for Invalid Date. -/
abbrev JsDate := Option Int

/-- Model of `Date.UTC(y, mIdx, d, h, mi, s)` and of the numeric
`new Date(y, mIdx, d, h, mi, s)` constructor (identical under the UTC
script timezone): `MakeDay`/`MakeTime` arithmetic, with the ECMAScript
mapping of years 0..99 to 1900..1999; any NaN argument gives an Invalid
Date. -/
def jsMakeDate (y mIdx d h mi s : Option Int) : JsDate :=
  match y, mIdx, d, h, mi, s with
  | some y, some mIdx, some d, some h, some mi, some s =>
    let yy := if 0 ≤ y ∧ y ≤ 99 then 1900 + y else y
    let ym := yy + mIdx / 12
    let mn := mIdx % 12
    some (daysFromCivil ym (mn + 1) d * 86400000 + h * 3600000 + mi * 60000 + s * 1000)
  | _, _, _, _, _, _ => none

/-- Model of `getFullYear` (= `getUTCFullYear` under the UTC timezone). -/
def jsGetFullYear (dt : JsDate) : Option Int :=
  dt.map fun t => (civilFromDays (t / 86400000)).1

/-- Model of `getMonth` (0-based month index; = `getUTCMonth`). -/
def jsGetMonth (dt : JsDate) : Option Int :=
  dt.map fun t => (civilFromDays (t / 86400000)).2.1 - 1

/-- Model of `getDate` (day of month; = `getUTCDate`). -/
def jsGetDate (dt : JsDate) : Option Int :=
  dt.map fun t => (civilFromDays (t / 86400000)).2.2

/-- Model of `getHours` (= `getUTCHours`): `HourFromTime`. -/
def jsGetHours (dt : JsDate) : Option Int := dt.map fun t => t / 3600000 % 24

/-- Model of `getMinutes` (= `getUTCMinutes`): `MinFromTime`. -/
def jsGetMinutes (dt : JsDate) : Option Int := dt.map fun t => t / 60000 % 60

/-- Model of `getSeconds` (= `getUTCSeconds`): `SecFromTime`. -/
def jsGetSeconds (dt : JsDate) : Option Int := dt.map fun t => t / 1000 % 60

/-- Model of `setHours(h, mi, s, ms)`: keep the day, replace the
time of day. -/
def jsSetHours (dt : JsDate) (h mi s ms : Int) : JsDate :=
  dt.map fun t => t - t % 86400000 + (h * 3600000 + mi * 60000 + s * 1000 + ms)

/-- Model of `setDate(newD)`: keep year, month and time of day, replace
the day of month (renormalizing, as ECMAScript `MakeDay` does). -/
def jsSetDate (dt : JsDate) (newD : Option Int) : JsDate :=
  match dt, newD with
  | some t, some nd =>
    let days := t / 86400000
    some (daysFromCivil (civilFromDays days).1 (civilFromDays days).2.1 nd * 86400000 +
      t % 86400000)
  | _, _ => none

/-- Model of `a < b` on two `Date`s (comparison of time values; any
comparison against NaN is false). -/
def jsDateLt (a b : JsDate) : Bool :=
  match a, b with
  | some x, some y => x < y
  | _, _ => false

/-- Model of `a > b` on two `Date`s. -/
def jsDateGt (a b : JsDate) : Bool :=
  match a, b with
  | some x, some y => y < x
  | _, _ => false

/-- Value of the two-digit string `a b`, if both are digits. -/
def parse2 (a b : Char) : Option Int :=
  match digitVal a, digitVal b with
  | some x, some y => some ((10 * x + y : Nat) : Int)
  | _, _ => none

/-- Value of the four-digit string `a b c d`, if all are digits. -/
def parse4 (a b c d : Char) : Option Int :=
  match digitVal a, digitVal b, digitVal c, digitVal d with
  | some x, some y, some z, some w =>
    some ((1000 * x + 100 * y + 10 * z + w : Nat) : Int)
  | _, _, _, _ => none

/-- Model of `new Date(string)` restricted to the ISO forms the ledger
holds (`YYYY-MM-DD` and `YYYY-MM-DDTHH:MM:SS`); other strings, and
out-of-range fields, give an Invalid Date.  Under the UTC script
timezone the date-only (UTC) and date-time (local) interpretations
coincide. -/
def jsDateFromString (s : String) : JsDate :=
  match s.data with
  | [y1, y2, y3, y4, '-', m1, m2, '-', d1, d2] =>
    jsDateFromFields (parse4 y1 y2 y3 y4) (parse2 m1 m2) (parse2 d1 d2)
      (some 0) (some 0) (some 0)
  | [y1, y2, y3, y4, '-', m1, m2, '-', d1, d2, 'T', h1, h2, ':', i1, i2, ':', s1, s2] =>
    jsDateFromFields (parse4 y1 y2 y3 y4) (parse2 m1 m2) (parse2 d1 d2)
      (parse2 h1 h2) (parse2 i1 i2) (parse2 s1 s2)
  | _ => none
where
  /-- Range-checked ISO fields to time value. -/
  jsDateFromFields (y m d h mi s : Option Int) : JsDate :=
    match y, m, d, h, mi, s with
    | some y, some m, some d, some h, some mi, some s =>
      if 1 ≤ m ∧ m ≤ 12 ∧ 1 ≤ d ∧ d ≤ daysInMonth y m ∧ h ≤ 23 ∧ mi ≤ 59 ∧ s ≤ 59 then
        some (daysFromCivil y m d * 86400000 + h * 3600000 + mi * 60000 + s * 1000)
      else none
    | _, _, _, _, _, _ => none

/-! ## Embedding of src/gas.ts

The core pipeline of the script, function by function.  A JS exception
(the only reachable one is the `TypeError` from `parseIcsDateTime` on a
token with no `T`) is modelled by `Option`: `none` propagates to the
caller.  External collaborators (calendar store, error-ledger sheet)
enter as explicit arguments. -/

/-- The untyped object accumulated while a `VEVENT` block is open
(fields attached ad hoc in the source; absent fields are `none`). -/
structure EventBuilder where
  title : Option String := none
  start : Option JsDate := none
  isAllDay : Option Bool := none
  end_ : Option JsDate := none
  description : Option String := none
  location : Option String := none
  deriving DecidableEq

/-- An event record as consumed by the dedup / reconciliation / creation
stages; `rowIndex` is only set on records rebuilt from the ledger. -/
structure EventRecord where
  title : String
  start : JsDate
  isAllDay : Bool := false
  end_ : Option JsDate := none
  description : Option String := none
  location : Option String := none
  rowIndex : Option Nat := none
  deriving DecidableEq

/-- Embedding of `parseIcsDate` (src/gas.ts:131): `YYYYMMDD` to a local
(= UTC here) midnight via the numeric `Date` constructor. -/
def parseIcsDate (dateStr : String) : JsDate :=
  let year := jsParseInt (jsSubstring dateStr 0 4)
  let month := (jsParseInt (jsSubstring dateStr 4 6)).map (· - 1)
  let day := jsParseInt (jsSubstring dateStr 6 8)
  jsMakeDate year month day (some 0) (some 0) (some 0)

/-- Embedding of `parseIcsDateTime` (src/gas.ts:141).  The source
destructures `dateTimeStr.split('T')`; when the token has no `T` the
time part is `undefined` and `timePart.substring` throws, modelled by
the outer `none`.  The two constructor branches (`Date.UTC` for a
`Z`-suffixed token, the local constructor otherwise) coincide under the
UTC script timezone, so both arms call `jsMakeDate`. -/
def parseIcsDateTime (dateTimeStr : String) : Option JsDate :=
  let parts := jsSplit dateTimeStr 'T'
  match parts[1]? with
  | none => none
  | some timePart =>
    let datePart := parts.headD ""
    let year := jsParseInt (jsSubstring datePart 0 4)
    let month := (jsParseInt (jsSubstring datePart 4 6)).map (· - 1)
    let day := jsParseInt (jsSubstring datePart 6 8)
    let hour := jsParseInt (jsSubstring timePart 0 2)
    let minute := jsParseInt (jsSubstring timePart 2 4)
    let second := jsParseInt (jsSubstring timePart 4 6)
    some (if jsEndsWith dateTimeStr "Z"
      then jsMakeDate year month day hour minute second
      else jsMakeDate year month day hour minute second)

/-- Embedding of `parseEventProperty` (src/gas.ts:102): prefix-matched,
case-sensitive property dispatch mutating the accumulating record. -/
def parseEventProperty (line : String) (event : EventBuilder) : Option EventBuilder :=
  if jsStartsWith line "SUMMARY:" then
    some { event with title := some (jsTrim (jsSubstringFrom line 8)) }
  else if jsStartsWith line "DTSTART;VALUE=DATE:" then
    some { event with isAllDay := some true, start := some (parseIcsDate (jsSubstringFrom line 19)) }
  else if jsStartsWith line "DTSTART:" then
    (parseIcsDateTime (jsSubstringFrom line 8)).map fun dt =>
      { event with isAllDay := some false, start := some dt }
  else if jsStartsWith line "DTEND;VALUE=DATE:" then
    some { event with end_ := some (parseIcsDate (jsSubstringFrom line 17)) }
  else if jsStartsWith line "DTEND:" then
    (parseIcsDateTime (jsSubstringFrom line 6)).map fun dt =>
      { event with end_ := some dt }
  else if jsStartsWith line "DESCRIPTION:" then
    some { event with description := some (jsSubstringFrom line 12) }
  else if jsStartsWith line "LOCATION:" then
    some { event with location := some (jsSubstringFrom line 9) }
  else some event

/-- The push condition at `END:VEVENT` (src/gas.ts:85):
`currentEvent?.title && currentEvent?.start` — the title must be present
and truthy (a nonempty string), the start present (a `Date` object is
always truthy, even an Invalid Date). -/
def finalizeEvent (ev : EventBuilder) : Option EventRecord :=
  match ev.title, ev.start with
  | some t, some st =>
    if t = "" then none
    else some { title := t, start := st, isAllDay := ev.isAllDay.getD false,
                end_ := ev.end_, description := ev.description, location := ev.location }
  | _, _ => none

/-- The mutable state of the `parseIcsContent` loop. -/
structure ParseState where
  events : List EventRecord := []
  currentEvent : Option EventBuilder := none
  inEvent : Bool := false
  deriving DecidableEq

/-- One iteration of the `parseIcsContent` loop body (src/gas.ts:80-93)
on an unfolded logical line. -/
def processLine (st : ParseState) (line : String) : Option ParseState :=
  if line = "BEGIN:VEVENT" then
    some { st with currentEvent := some {}, inEvent := true }
  else if line = "END:VEVENT" ∧ st.inEvent = true then
    some { events := st.events ++ (st.currentEvent.bind finalizeEvent).toList,
           currentEvent := none, inEvent := false }
  else if st.inEvent = true ∧ st.currentEvent.isSome = true then
    match st.currentEvent with
    | some ev => (parseEventProperty line ev).map fun ev2 => { st with currentEvent := some ev2 }
    | none => some st
  else some st

/-- The `parseIcsContent` loop over a list of logical lines. -/
def processLines : ParseState → List String → Option ParseState
  | st, [] => some st
  | st, l :: ls =>
    match processLine st l with
    | none => none
    | some st2 => processLines st2 ls

/-- Is this raw line a continuation line (starts with a space or tab)? -/
def isContinuationLine (s : String) : Bool := jsStartsWith s " " || jsStartsWith s "\t"

/-- The line-unfolding loop of `parseIcsContent` (src/gas.ts:72-78):
`acc` is the logical line being assembled — the first physical line
trimmed — onto which each continuation line minus its first character is
appended. -/
def unfoldInto (acc : String) : List String → List String
  | [] => [acc]
  | l :: rest =>
    if isContinuationLine l then unfoldInto (acc ++ jsSubstringFrom l 1) rest
    else acc :: unfoldInto (jsTrim l) rest

/-- Unfold raw (split) lines into logical lines. -/
def unfoldLines : List String → List String
  | [] => []
  | l :: rest => unfoldInto (jsTrim l) rest

/-- Embedding of `parseIcsContent` (src/gas.ts:66): split, unfold, run
the `VEVENT` state machine; `none` is a propagated exception. -/
def parseIcsContent (content : String) : Option (List EventRecord) :=
  (processLines {} (unfoldLines (jsSplitLines content))).map ParseState.events

/-- Embedding of `formatDateKey` (src/gas.ts:190): `YYYY-MM-DD` of a
`Date` in the (UTC-modelled) script timezone; month and day are
two-digit padded.  An Invalid Date prints as `NaN-NaN-NaN`. -/
def formatDateKey (date : JsDate) : String :=
  let year := jsNumToString (jsGetFullYear date)
  let month := jsPadStart (jsNumToString ((jsGetMonth date).map (· + 1))) 2 '0'
  let day := jsPadStart (jsNumToString (jsGetDate date)) 2 '0'
  year ++ "-" ++ month ++ "-" ++ day

/-- Embedding of `generateEventKey` (src/gas.ts:181): the reconciliation
key `"YYYY-MM-DD|lowercased-trimmed-title"`. -/
def generateEventKey (event : EventRecord) : String :=
  formatDateKey event.start ++ "|" ++ jsTrim (jsToLower event.title)

/-- Embedding of `removeDuplicateEvents` (src/gas.ts:163): keep the
first record for each key; the `Set` of seen keys is modelled as the
list of keys in insertion order (only membership is used). -/
def removeDuplicateEventsStep (acc : List EventRecord × List String)
    (event : EventRecord) : List EventRecord × List String :=
  let key := generateEventKey event
  if acc.2.contains key then acc
  else (acc.1 ++ [event], acc.2 ++ [key])

/-- The `forEach` fold of `removeDuplicateEvents`, with the accumulated
unique records and seen keys. -/
def removeDuplicateEvents (events : List EventRecord) : List EventRecord :=
  (events.foldl removeDuplicateEventsStep ([], [])).1

/-- The `forEach` body of `getEventDateRange`: running min and max of
the starts under the NaN-rejecting `Date` comparisons. -/
def dateRangeStep (mm : JsDate × JsDate) (event : EventRecord) : JsDate × JsDate :=
  let eventDate := event.start
  (if jsDateLt eventDate mm.1 then eventDate else mm.1,
   if jsDateGt eventDate mm.2 then eventDate else mm.2)

/-- Embedding of `getEventDateRange` (src/gas.ts:227): `null`/`null` for
an empty list, otherwise min/max of the starts widened to the start of
the previous day and the end (23:59:59.999) of the next day. -/
def getEventDateRange (events : List EventRecord) : Option JsDate × Option JsDate :=
  match events with
  | [] => (none, none)
  | e0 :: _ =>
    let mm := events.foldl dateRangeStep (e0.start, e0.start)
    let rangeStart := jsSetHours (jsSetDate mm.1 ((jsGetDate mm.1).map (· - 1))) 0 0 0 0
    let rangeEnd := jsSetHours (jsSetDate mm.2 ((jsGetDate mm.2).map (· + 1))) 23 59 59 999
    (some rangeStart, some rangeEnd)

/-- An event returned by the calendar store's range query, with the
accessors `getExistingCalendarEvents` uses. -/
structure CalEvent where
  title : String
  isAllDayEvent : Bool
  allDayStartDate : JsDate
  startTime : JsDate
  deriving DecidableEq

/-- Embedding of `getExistingCalendarEvents` (src/gas.ts:200): when the
date range is `null` the store is not queried and the empty key set is
returned; otherwise every event of the queried window contributes its
reconciliation key.  The store query is the explicit `getEvents`
argument; the key `Set` is modelled as a duplicate-free list. -/
def getExistingCalendarEvents (getEvents : JsDate → JsDate → List CalEvent)
    (events : List EventRecord) : List String :=
  let dateRange := getEventDateRange events
  match dateRange with
  | (some rangeStart, some rangeEnd) =>
    (getEvents rangeStart rangeEnd).foldl
      (fun keys event =>
        let eventDate := if event.isAllDayEvent then event.allDayStartDate else event.startTime
        let key := formatDateKey eventDate ++ "|" ++ jsTrim (jsToLower event.title)
        if keys.contains key then keys else keys ++ [key])
      []
  | _ => []

/-- Embedding of `filterEventsToCreate` (src/gas.ts:254): keep the
records whose key is not among the existing keys. -/
def filterEventsToCreate (events : List EventRecord) (existingKeys : List String) :
    List EventRecord :=
  events.filter fun event => !(existingKeys.contains (generateEventKey event))

/-- The row loop of `getErrorEvents` (src/gas.ts:273): `i` is the
0-based index of the row in the sheet data; a row is reconstructed when
its title and start cells are truthy (nonempty).  Cells are modelled as
strings; `row[4] || ''` is the identity on a string cell. -/
def getErrorEventsLoop : Nat → List (List String) → List EventRecord
  | _, [] => []
  | i, row :: rest =>
    if row.getD 0 "" ≠ "" ∧ row.getD 1 "" ≠ "" then
      { title := row.getD 0 "",
        start := jsDateFromString (row.getD 1 ""),
        isAllDay := decide (row.getD 3 "" = "TRUE"),
        end_ := if row.getD 2 "" ≠ "" then some (jsDateFromString (row.getD 2 "")) else none,
        description := some (row.getD 4 ""),
        location := some (row.getD 5 ""),
        rowIndex := some (i + 1) } :: getErrorEventsLoop (i + 1) rest
    else getErrorEventsLoop (i + 1) rest

/-- Embedding of `getErrorEvents` (src/gas.ts:264) over the ledger
sheet's data (header row included, as `getDataRange().getValues()`
returns it). -/
def getErrorEvents (data : List (List String)) : List EventRecord :=
  if data.length ≤ 1 then [] else getErrorEventsLoop 1 (data.drop 1)

/-- Embedding of steps 1-5 of `importIcsToCalendar` (src/gas.ts:17):
parse, dedup, fetch existing keys, filter, and append the ledger's retry
records.  Returns the list handed to batch creation (step 6, excluded
orchestration); `none` is the propagated parse exception. -/
def importIcsToCalendar (getEvents : JsDate → JsDate → List CalEvent)
    (ledgerData : List (List String)) (content : String) : Option (List EventRecord) :=
  match parseIcsContent content with
  | none => none
  | some events =>
    let uniqueEvents := removeDuplicateEvents events
    let existingEvents := getExistingCalendarEvents getEvents uniqueEvents
    let eventsToCreate := filterEventsToCreate uniqueEvents existingEvents
    let errorEvents := getErrorEvents ledgerData
    some (eventsToCreate ++ errorEvents)

/-! ## Auxiliary definitions for the claims

`accumProps` restates the in-block property folding; `specFirstOccurrences`
is the specification-side description of deduplication; `startOfDayMs` and
`concatStrings` phrase the spec's "start of day" and concatenation;
`padDigits` and `icsUtcToken` build the date-time tokens quantified over
in the decoder claim. -/

/-- Fold the recognized properties of an open `VEVENT` block into the
accumulating record (`none` propagates a decoder exception). -/
def accumProps : EventBuilder → List String → Option EventBuilder
  | ev, [] => some ev
  | ev, l :: ls =>
    match parseEventProperty l ev with
    | none => none
    | some ev2 => accumProps ev2 ls

/-- Helper for `specFirstOccurrences`: `pre` holds the records already
read, a record is kept when no earlier record shares its key. -/
def specDedupAux (pre : List EventRecord) : List EventRecord → List EventRecord
  | [] => []
  | e :: es =>
    if pre.any (fun p => generateEventKey p == generateEventKey e) then
      specDedupAux (pre ++ [e]) es
    else e :: specDedupAux (pre ++ [e]) es

/-- Modelled from the spec's words for the Deduplicator: retain exactly
the records whose reconciliation key does not occur among the earlier
records of the input, preserving order. -/
def specFirstOccurrences (events : List EventRecord) : List EventRecord :=
  specDedupAux [] events

/-- Start of the calendar day (00:00:00.000) containing the instant `t`,
in the (UTC-modelled) script timezone. -/
def startOfDayMs (t : Int) : Int := t - t % 86400000

/-- Concatenation of a list of strings with no separator. -/
def concatStrings : List String → String
  | [] => ""
  | s :: ss => s ++ concatStrings ss

/-- The character of a decimal digit. -/
def digitChar (k : Nat) : Char := Char.ofNat (48 + k)

/-- The `w` low decimal digits of `n`, zero-padded to width `w`. -/
def padDigits : Nat → Nat → List Char
  | 0, _ => []
  | w + 1, n => padDigits w (n / 10) ++ [digitChar (n % 10)]

/-- The ICS UTC date-time token `YYYYMMDDTHHMMSSZ` with the given
numeric fields. -/
def icsUtcToken (y m d h mi s : Nat) : String :=
  String.mk (padDigits 4 y ++ padDigits 2 m ++ padDigits 2 d ++
    'T' :: (padDigits 2 h ++ padDigits 2 mi ++ padDigits 2 s ++ ['Z']))

/-! ## Round-trip facts for the civil-date arithmetic -/

theorem eraOf_doeOf_spec (zz : Int) :
    zz = 146097 * eraOf zz + doeOf zz ∧ 0 ≤ doeOf zz ∧ doeOf zz ≤ 146096 := by
  simp only [doeOf, eraOf]; omega

theorem yoeOf_spec (doe : Int) (h0 : 0 ≤ doe) (h1 : doe ≤ 146096) :
    0 ≤ yoeOf doe ∧ yoeOf doe ≤ 399 ∧ yearStartInEra (yoeOf doe) ≤ doe ∧
      doe - yearStartInEra (yoeOf doe) ≤ 365 := by
  simp only [yoeOf, yearStartInEra]
  split_ifs <;> omega

theorem mpOf_bounds (doy : Int) (h0 : 0 ≤ doy) (h1 : doy ≤ 365) :
    0 ≤ mpOf doy ∧ mpOf doy ≤ 11 := by
  simp only [mpOf]; omega

theorem daysFromCivil_decomp_hi (era yoe m d : Int) (h0 : 0 ≤ yoe) (h1 : yoe ≤ 399)
    (hm1 : 3 ≤ m) (hm2 : m ≤ 12) :
    daysFromCivil (yoe + era * 400) m d =
      146097 * era + yearStartInEra yoe + (153 * (m - 3) + 2) / 5 + d - 1 - 719468 := by
  simp only [daysFromCivil, yearStartInEra]
  split_ifs <;> omega

theorem daysFromCivil_decomp_lo (era yoe m d : Int) (h0 : 0 ≤ yoe) (h1 : yoe ≤ 399)
    (_hm1 : 1 ≤ m) (hm2 : m ≤ 2) :
    daysFromCivil (yoe + era * 400 + 1) m d =
      146097 * era + yearStartInEra yoe + (153 * (m + 9) + 2) / 5 + d - 1 - 719468 := by
  simp only [daysFromCivil, yearStartInEra]
  split_ifs
  omega

theorem yoeOf_yearStart_left (yoe doy : Int) (h0 : 0 ≤ yoe) (h1 : yoe ≤ 399) (h2 : 0 ≤ doy)
    (hbr : yearStartInEra yoe + doy < yearStartInEra (yoe + 1)) :
    yoeOf (yearStartInEra yoe + doy) = yoe := by
  simp only [yoeOf, yearStartInEra] at *
  have hg : (365 * yoe + yoe / 4 - yoe / 100 + doy) / 366 = yoe - 1 ∨
      (365 * yoe + yoe / 4 - yoe / 100 + doy) / 366 = yoe := by omega
  rcases hg with hg | hg <;> rw [hg] <;> split_ifs <;> omega

theorem yoeOf_yearStart_last (doy : Int) (h2 : 0 ≤ doy)
    (hcap : yearStartInEra 399 + doy ≤ 146096) :
    yoeOf (yearStartInEra 399 + doy) = 399 := by
  simp only [yoeOf, yearStartInEra] at *
  have hg : (365 * 399 + 399 / 4 - 399 / 100 + doy) / 366 = 398 ∨
      (365 * 399 + 399 / 4 - 399 / 100 + doy) / 366 = 399 := by omega
  rcases hg with hg | hg <;> rw [hg] <;> split_ifs <;> omega

theorem civilFromDays_eval (z era yoe doy : Int)
    (hz : z + 719468 = 146097 * era + (yearStartInEra yoe + doy))
    (h0 : 0 ≤ yoe) (h1 : yoe ≤ 399) (h2 : 0 ≤ doy)
    (hcap : yearStartInEra yoe + doy ≤ 146096)
    (hbr : yearStartInEra yoe + doy < yearStartInEra (yoe + 1) ∨ yoe = 399) :
    civilFromDays z =
      (if (if mpOf doy < 10 then mpOf doy + 3 else mpOf doy - 9) ≤ 2
          then yoe + era * 400 + 1 else yoe + era * 400,
        if mpOf doy < 10 then mpOf doy + 3 else mpOf doy - 9,
        doy - (153 * mpOf doy + 2) / 5 + 1) := by
  have hYpos : 0 ≤ yearStartInEra yoe := by simp only [yearStartInEra]; omega
  have hera : eraOf (z + 719468) = era := by simp only [eraOf]; omega
  have hdoe : doeOf (z + 719468) = yearStartInEra yoe + doy := by
    simp only [doeOf, eraOf]; omega
  have hyoe : yoeOf (yearStartInEra yoe + doy) = yoe := by
    rcases hbr with hbr | hbr
    · exact yoeOf_yearStart_left yoe doy h0 h1 h2 hbr
    · subst hbr
      exact yoeOf_yearStart_last doy h2 hcap
  simp only [civilFromDays, hera, hdoe, hyoe, add_sub_cancel_left]

theorem daysFromCivil_civilFromDays_aux (z y m d : Int) (h : civilFromDays z = (y, m, d)) :
    daysFromCivil y m d = z := by
  obtain ⟨hsplit, hd0, hd1⟩ := eraOf_doeOf_spec (z + 719468)
  obtain ⟨hy0, hy1, hy2, hy3⟩ := yoeOf_spec (doeOf (z + 719468)) hd0 hd1
  obtain ⟨hmp0, hmp1⟩ := mpOf_bounds
    (doeOf (z + 719468) - yearStartInEra (yoeOf (doeOf (z + 719468)))) (by omega) (by omega)
  simp only [civilFromDays, Prod.mk.injEq] at h
  obtain ⟨h1, h2, h3⟩ := h
  subst h1; subst h2; subst h3
  split_ifs with hq1 hq2 hq3
  · exfalso; omega
  · rw [daysFromCivil_decomp_hi _ _ _ _ hy0 hy1 (by omega) (by omega), Int.add_sub_cancel]
    omega
  · rw [daysFromCivil_decomp_lo _ _ _ _ hy0 hy1 (by omega) (by omega), Int.sub_add_cancel]
    omega
  · exfalso; omega

/-- The day-number / civil-date conversions are mutually inverse, one way. -/
theorem daysFromCivil_civilFromDays (z : Int) :
    daysFromCivil (civilFromDays z).1 (civilFromDays z).2.1 (civilFromDays z).2.2 = z :=
  daysFromCivil_civilFromDays_aux z _ _ _ rfl

theorem civilFromDays_daysFromCivil_hi (y m d : Int) (hm1 : 3 ≤ m) (hm2 : m ≤ 12)
    (hd1 : 1 ≤ d) (hdoy : (153 * (m - 3) + 2) / 5 + d - 1 ≤ 364)
    (hnext : (153 * (m - 3) + 2) / 5 + d - 1 < (153 * (m - 2) + 2) / 5) :
    civilFromDays (daysFromCivil y m d) = (y, m, d) := by
  obtain ⟨era, yoe, hsplit, h0, h1⟩ :
      ∃ era yoe, y = yoe + era * 400 ∧ 0 ≤ yoe ∧ yoe ≤ 399 :=
    ⟨y / 400, y - y / 400 * 400, by omega, by omega, by omega⟩
  rw [hsplit, daysFromCivil_decomp_hi era yoe m d h0 h1 hm1 hm2]
  rw [civilFromDays_eval
      (146097 * era + yearStartInEra yoe + (153 * (m - 3) + 2) / 5 + d - 1 - 719468)
      era yoe ((153 * (m - 3) + 2) / 5 + d - 1) (by omega) h0 h1 (by omega)
      (by simp only [yearStartInEra]; omega)
      (Or.inl (by simp only [yearStartInEra]; omega))]
  have hmp : mpOf ((153 * (m - 3) + 2) / 5 + d - 1) = m - 3 := by
    simp only [mpOf]; omega
  rw [hmp, if_pos (by omega : m - 3 < 10), if_neg (by omega : ¬(m - 3 + 3 ≤ 2))]
  simp only [Prod.mk.injEq]
  refine ⟨?_, ?_, ?_⟩ <;> first | trivial | omega

theorem civilFromDays_daysFromCivil_lo (y m d : Int) (hm1 : 1 ≤ m) (hm2 : m ≤ 2)
    (hd1 : 1 ≤ d) (hdoy : (153 * (m + 9) + 2) / 5 + d - 1 ≤ 365)
    (hnext : (153 * (m + 9) + 2) / 5 + d - 1 < (153 * (m + 10) + 2) / 5)
    (hbig : (153 * (m + 9) + 2) / 5 + d - 1 = 365 → isLeapYear y = true) :
    civilFromDays (daysFromCivil y m d) = (y, m, d) := by
  obtain ⟨era, yoe, hsplit, h0, h1⟩ :
      ∃ era yoe, y = yoe + era * 400 + 1 ∧ 0 ≤ yoe ∧ yoe ≤ 399 :=
    ⟨(y - 1) / 400, (y - 1) - (y - 1) / 400 * 400, by omega, by omega, by omega⟩
  have hbr : yearStartInEra yoe + ((153 * (m + 9) + 2) / 5 + d - 1) <
      yearStartInEra (yoe + 1) ∨ yoe = 399 := by
    rcases (show yoe = 399 ∨ yoe ≤ 398 by omega) with h | h
    · exact Or.inr h
    · left
      rcases (show (153 * (m + 9) + 2) / 5 + d - 1 ≤ 364 ∨
          (153 * (m + 9) + 2) / 5 + d - 1 = 365 by omega) with hc | hc
      · simp only [yearStartInEra]; omega
      · have hly := hbig hc
        simp only [isLeapYear, Bool.or_eq_true, Bool.and_eq_true, Bool.not_eq_true',
          decide_eq_true_eq, decide_eq_false_iff_not] at hly
        simp only [yearStartInEra]
        rcases hly with ⟨hly1, hly2⟩ | hly <;> omega
  rw [hsplit, daysFromCivil_decomp_lo era yoe m d h0 h1 hm1 hm2]
  rw [civilFromDays_eval
      (146097 * era + yearStartInEra yoe + (153 * (m + 9) + 2) / 5 + d - 1 - 719468)
      era yoe ((153 * (m + 9) + 2) / 5 + d - 1) (by omega) h0 h1 (by omega)
      (by simp only [yearStartInEra]; omega) hbr]
  have hmp : mpOf ((153 * (m + 9) + 2) / 5 + d - 1) = m + 9 := by
    simp only [mpOf]; omega
  rw [hmp, if_neg (by omega : ¬(m + 9 < 10)), if_pos (by omega : m + 9 - 9 ≤ 2)]
  simp only [Prod.mk.injEq]
  refine ⟨?_, ?_, ?_⟩ <;> first | trivial | omega

/-- The day-number / civil-date conversions are mutually inverse on valid
civil dates. -/
theorem civilFromDays_daysFromCivil (y m d : Int) (hm1 : 1 ≤ m) (hm2 : m ≤ 12)
    (hd1 : 1 ≤ d) (hd2 : d ≤ daysInMonth y m) :
    civilFromDays (daysFromCivil y m d) = (y, m, d) := by
  by_cases hm : m ≤ 2
  · have hdb : ((153 * (m + 9) + 2) / 5 + d - 1 ≤ 365 ∧
        (153 * (m + 9) + 2) / 5 + d - 1 < (153 * (m + 10) + 2) / 5) ∧
        ((153 * (m + 9) + 2) / 5 + d - 1 = 365 → isLeapYear y = true) := by
      rcases (show m = 1 ∨ m = 2 by omega) with h | h <;> subst h
      · have h31 : d ≤ 31 := by
          simp only [daysInMonth] at hd2; norm_num at hd2; omega
        exact ⟨⟨by omega, by omega⟩, fun h365 => absurd h365 (by omega)⟩
      · by_cases hly : isLeapYear y = true
        · have h29 : d ≤ 29 := by
            simp only [daysInMonth, hly] at hd2; norm_num at hd2; omega
          exact ⟨⟨by omega, by omega⟩, fun _ => hly⟩
        · have h28 : d ≤ 28 := by
            simp only [daysInMonth] at hd2; norm_num at hd2
            rw [if_neg hly] at hd2; omega
          exact ⟨⟨by omega, by omega⟩, fun h365 => absurd h365 (by omega)⟩
    exact civilFromDays_daysFromCivil_lo y m d hm1 hm hd1 hdb.1.1 hdb.1.2 hdb.2
  · have hdb : d ≤ 31 ∧ (153 * (m - 3) + 2) / 5 + d - 1 < (153 * (m - 2) + 2) / 5 := by
      rcases (show m = 3 ∨ m = 4 ∨ m = 5 ∨ m = 6 ∨ m = 7 ∨ m = 8 ∨ m = 9 ∨ m = 10 ∨
          m = 11 ∨ m = 12 by omega) with h | h | h | h | h | h | h | h | h | h <;>
        subst h <;> simp only [daysInMonth] at hd2 <;> norm_num at hd2 <;>
        exact ⟨by omega, by omega⟩
    exact civilFromDays_daysFromCivil_hi y m d (by omega) hm2 hd1 (by omega) hdb.2

/-! ## String facts -/

theorem isPrefixOf_append_self (p v : List Char) : p.isPrefixOf (p ++ v) = true := by
  induction p with
  | nil => simp [List.isPrefixOf]
  | cons a as ih => simp [List.isPrefixOf, ih]

theorem isPrefixOf_append_false (p c v : List Char) (h1 : c.isPrefixOf p = false)
    (h2 : p.isPrefixOf c = false) : p.isPrefixOf (c ++ v) = false := by
  induction p generalizing c with
  | nil => simp [List.isPrefixOf] at h2
  | cons a as ih =>
    cases c with
    | nil => simp [List.isPrefixOf] at h1
    | cons b bs =>
      simp only [List.cons_append, List.isPrefixOf, Bool.and_eq_false_iff] at *
      rcases h1 with h1 | h1
      · left
        simp only [beq_eq_false_iff_ne] at h1 ⊢
        exact fun h => h1 h.symm
      · rcases h2 with h2 | h2
        · left; exact h2
        · right; exact ih bs h1 h2

theorem jsStartsWith_append_self (c v : String) : jsStartsWith (c ++ v) c = true := by
  simp only [jsStartsWith, String.data_append]
  exact isPrefixOf_append_self _ _

theorem jsStartsWith_append_false (c v p : String) (h1 : jsStartsWith p c = false)
    (h2 : jsStartsWith c p = false) : jsStartsWith (c ++ v) p = false := by
  simp only [jsStartsWith, String.data_append] at *
  exact isPrefixOf_append_false _ _ _ h1 h2

theorem mk_data (s : String) : String.mk s.data = s := rfl

theorem jsSubstringFrom_append (c v : String) (n : Nat) (h : n = c.data.length) :
    jsSubstringFrom (c ++ v) n = v := by
  subst h
  simp only [jsSubstringFrom, String.data_append, List.drop_left]

/-! ## Property-line dispatch facts (claims C8, C9) -/

theorem parseEventProperty_summary (v : String) (ev : EventBuilder) :
    parseEventProperty ("SUMMARY:" ++ v) ev = some { ev with title := some (jsTrim v) } := by
  have wt : jsStartsWith ("SUMMARY:" ++ v) "SUMMARY:" = true := jsStartsWith_append_self _ _
  rw [parseEventProperty, wt]
  simp only [if_true, jsSubstringFrom_append "SUMMARY:" v 8 (by decide)]

theorem parseEventProperty_dtstart_date (v : String) (ev : EventBuilder) :
    parseEventProperty ("DTSTART;VALUE=DATE:" ++ v) ev =
      some { ev with isAllDay := some true, start := some (parseIcsDate v) } := by
  have w1 : jsStartsWith ("DTSTART;VALUE=DATE:" ++ v) "SUMMARY:" = false :=
    jsStartsWith_append_false _ _ _ (by decide) (by decide)
  have wt : jsStartsWith ("DTSTART;VALUE=DATE:" ++ v) "DTSTART;VALUE=DATE:" = true :=
    jsStartsWith_append_self _ _
  rw [parseEventProperty, w1, wt]
  simp only [Bool.false_eq_true, if_false, if_true,
    jsSubstringFrom_append "DTSTART;VALUE=DATE:" v 19 (by decide)]

theorem parseEventProperty_dtend_date (v : String) (ev : EventBuilder) :
    parseEventProperty ("DTEND;VALUE=DATE:" ++ v) ev =
      some { ev with end_ := some (parseIcsDate v) } := by
  have w1 : jsStartsWith ("DTEND;VALUE=DATE:" ++ v) "SUMMARY:" = false :=
    jsStartsWith_append_false _ _ _ (by decide) (by decide)
  have w2 : jsStartsWith ("DTEND;VALUE=DATE:" ++ v) "DTSTART;VALUE=DATE:" = false :=
    jsStartsWith_append_false _ _ _ (by decide) (by decide)
  have w3 : jsStartsWith ("DTEND;VALUE=DATE:" ++ v) "DTSTART:" = false :=
    jsStartsWith_append_false _ _ _ (by decide) (by decide)
  have wt : jsStartsWith ("DTEND;VALUE=DATE:" ++ v) "DTEND;VALUE=DATE:" = true :=
    jsStartsWith_append_self _ _
  rw [parseEventProperty, w1, w2, w3, wt]
  simp only [Bool.false_eq_true, if_false, if_true,
    jsSubstringFrom_append "DTEND;VALUE=DATE:" v 17 (by decide)]

theorem parseEventProperty_description (v : String) (ev : EventBuilder) :
    parseEventProperty ("DESCRIPTION:" ++ v) ev = some { ev with description := some v } := by
  have w1 : jsStartsWith ("DESCRIPTION:" ++ v) "SUMMARY:" = false :=
    jsStartsWith_append_false _ _ _ (by decide) (by decide)
  have w2 : jsStartsWith ("DESCRIPTION:" ++ v) "DTSTART;VALUE=DATE:" = false :=
    jsStartsWith_append_false _ _ _ (by decide) (by decide)
  have w3 : jsStartsWith ("DESCRIPTION:" ++ v) "DTSTART:" = false :=
    jsStartsWith_append_false _ _ _ (by decide) (by decide)
  have w4 : jsStartsWith ("DESCRIPTION:" ++ v) "DTEND;VALUE=DATE:" = false :=
    jsStartsWith_append_false _ _ _ (by decide) (by decide)
  have w5 : jsStartsWith ("DESCRIPTION:" ++ v) "DTEND:" = false :=
    jsStartsWith_append_false _ _ _ (by decide) (by decide)
  have wt : jsStartsWith ("DESCRIPTION:" ++ v) "DESCRIPTION:" = true :=
    jsStartsWith_append_self _ _
  rw [parseEventProperty, w1, w2, w3, w4, w5, wt]
  simp only [Bool.false_eq_true, if_false, if_true,
    jsSubstringFrom_append "DESCRIPTION:" v 12 (by decide)]

theorem parseEventProperty_location (v : String) (ev : EventBuilder) :
    parseEventProperty ("LOCATION:" ++ v) ev = some { ev with location := some v } := by
  have w1 : jsStartsWith ("LOCATION:" ++ v) "SUMMARY:" = false :=
    jsStartsWith_append_false _ _ _ (by decide) (by decide)
  have w2 : jsStartsWith ("LOCATION:" ++ v) "DTSTART;VALUE=DATE:" = false :=
    jsStartsWith_append_false _ _ _ (by decide) (by decide)
  have w3 : jsStartsWith ("LOCATION:" ++ v) "DTSTART:" = false :=
    jsStartsWith_append_false _ _ _ (by decide) (by decide)
  have w4 : jsStartsWith ("LOCATION:" ++ v) "DTEND;VALUE=DATE:" = false :=
    jsStartsWith_append_false _ _ _ (by decide) (by decide)
  have w5 : jsStartsWith ("LOCATION:" ++ v) "DTEND:" = false :=
    jsStartsWith_append_false _ _ _ (by decide) (by decide)
  have w6 : jsStartsWith ("LOCATION:" ++ v) "DESCRIPTION:" = false :=
    jsStartsWith_append_false _ _ _ (by decide) (by decide)
  have wt : jsStartsWith ("LOCATION:" ++ v) "LOCATION:" = true :=
    jsStartsWith_append_self _ _
  rw [parseEventProperty, w1, w2, w3, w4, w5, w6, wt]
  simp only [Bool.false_eq_true, if_false, if_true,
    jsSubstringFrom_append "LOCATION:" v 9 (by decide)]

/-- C8, counterexample: the claim says a date-only `DTEND;VALUE=DATE:`
property flags the record all-day, but on the concrete line
`DTEND;VALUE=DATE:20240105` the parser leaves the all-day flag of a
fresh record unset (`none`), not `some true`. -/
theorem claim_C8_counterexample :
    (parseEventProperty "DTEND;VALUE=DATE:20240105" {}).map EventBuilder.isAllDay =
      some none ∧ some (none : Option Bool) ≠ some (some true) := by
  refine ⟨by decide, by decide⟩

/-- C8 (amended): a date-only start property (`DTSTART;VALUE=DATE:`)
flags the accumulating record all-day and decodes its value through the
date-only decoder `parseIcsDate`; a date-only end property
(`DTEND;VALUE=DATE:`) decodes through the date-only decoder but leaves
the all-day flag unchanged. -/
theorem claim_C8 (v : String) (ev : EventBuilder) :
    parseEventProperty ("DTSTART;VALUE=DATE:" ++ v) ev =
      some { ev with isAllDay := some true, start := some (parseIcsDate v) } ∧
    parseEventProperty ("DTEND;VALUE=DATE:" ++ v) ev =
      some { ev with end_ := some (parseIcsDate v) } ∧
    (parseEventProperty ("DTEND;VALUE=DATE:" ++ v) ev).map EventBuilder.isAllDay =
      some ev.isAllDay := by
  refine ⟨parseEventProperty_dtstart_date v ev, parseEventProperty_dtend_date v ev, ?_⟩
  rw [parseEventProperty_dtend_date v ev]
  rfl

/-- C9: for every recognized property line the stored value is the text
after the fixed prefix, verbatim, with trimming applied to the `SUMMARY`
value only; `DESCRIPTION` and `LOCATION` values keep their whitespace
exactly. -/
theorem claim_C9 (v : String) (ev : EventBuilder) :
    parseEventProperty ("SUMMARY:" ++ v) ev = some { ev with title := some (jsTrim v) } ∧
    parseEventProperty ("DESCRIPTION:" ++ v) ev = some { ev with description := some v } ∧
    parseEventProperty ("LOCATION:" ++ v) ev = some { ev with location := some v } :=
  ⟨parseEventProperty_summary v ev, parseEventProperty_description v ev,
    parseEventProperty_location v ev⟩

/-! ## Line unfolding (claim C7) -/

theorem append_empty_str (s : String) : s ++ "" = s := by
  apply String.ext
  simp [String.data_append]

theorem unfoldInto_conts (acc : String) (conts : List String)
    (hc : ∀ c ∈ conts, isContinuationLine c = true) :
    unfoldInto acc conts =
      [acc ++ concatStrings (conts.map (fun c => jsSubstringFrom c 1))] := by
  induction conts generalizing acc with
  | nil => simp [unfoldInto, concatStrings, append_empty_str]
  | cons c cs ih =>
    rw [unfoldInto, if_pos (hc c (by simp))]
    rw [ih _ (fun x hx => hc x (by simp [hx]))]
    simp [concatStrings, String.append_assoc]

/-- C7, counterexample: the logical line `A B`, folded at its inner
space into the physical lines `A ` and ` B`, unfolds to `AB`, not back
to `A B`: the `trim` of the first physical line removes its trailing
space, so unfolding does not always reproduce the original string. -/
theorem claim_C7_counterexample :
    unfoldLines ["A ", " B"] = ["AB"] ∧ ("A " ++ "B" : String) = "A B" ∧
      ("AB" : String) ≠ "A B" := by
  refine ⟨by decide, by decide, by decide⟩

/-- C7 (amended): for a logical line given as a first physical segment
`s0` followed by continuation lines (each beginning with a space or
tab), the unfolder strips each continuation's single leading character
and concatenates the remainders onto `jsTrim s0` with no separator; it
reproduces the original string exactly whenever the first physical
segment carries no leading or trailing whitespace (`jsTrim s0 = s0`). -/
theorem claim_C7 (s0 : String) (conts : List String)
    (hc : ∀ c ∈ conts, isContinuationLine c = true) (h0 : jsTrim s0 = s0) :
    unfoldLines (s0 :: conts) =
      [s0 ++ concatStrings (conts.map (fun c => jsSubstringFrom c 1))] := by
  rw [unfoldLines, h0]
  exact unfoldInto_conts s0 conts hc

/-- C7 witness at a concrete fold of `SUMMARY:Hello`. -/
theorem claim_C7_witness :
    unfoldLines ["SUMMARY:He", " llo"] =
      ["SUMMARY:He" ++ concatStrings ([" llo"].map (fun c => jsSubstringFrom c 1))] :=
  claim_C7 "SUMMARY:He" [" llo"] (by decide) (by decide)

/-! ## Date-time decoder failure condition (claim C10) -/

theorem splitOnChar_length (c : Char) (l : List Char) :
    (splitOnChar c l).length = l.count c + 1 := by
  induction l with
  | nil => rfl
  | cons x xs ih =>
    rw [splitOnChar]
    cases h : splitOnChar c xs with
    | nil => rw [h] at ih; simp at ih
    | cons r rs =>
      rw [h] at ih
      by_cases hx : x = c
      · subst hx
        dsimp only
        rw [if_pos rfl]
        simp only [List.count_cons, List.length_cons] at *
        simp
        omega
      · dsimp only
        rw [if_neg hx]
        simp only [List.count_cons, List.length_cons] at *
        have hxc : (x == c) = false := by simp [hx]
        rw [hxc]
        simp
        omega

/-- C10: the date-time decoder fails (throws, modelled by `none`)
exactly when its input token contains no `T`; every token containing a
`T` yields a `Date` value without raising — possibly an Invalid Date
when the numeric fields are absent or malformed. -/
theorem claim_C10 (s : String) :
    parseIcsDateTime s = none ↔ ('T' ∉ s.data) := by
  have hlen : (jsSplit s 'T').length = s.data.count 'T' + 1 := by
    simp [jsSplit, splitOnChar_length]
  rcases hsplit : (jsSplit s 'T')[1]? with _ | tp
  · have hle : (jsSplit s 'T').length ≤ 1 := List.getElem?_eq_none_iff.mp hsplit
    have hcount : s.data.count 'T' = 0 := by omega
    simp only [parseIcsDateTime, hsplit]
    simp [List.count_eq_zero.mp hcount]
  · have hgt : 1 < (jsSplit s 'T').length := by
      by_contra hle
      rw [List.getElem?_eq_none_iff.mpr (by omega)] at hsplit
      exact Option.noConfusion hsplit
    have hmem : 'T' ∈ s.data := by
      rw [← List.count_pos_iff]
      omega
    simp only [parseIcsDateTime, hsplit]
    simp [hmem]

/-! ## Deduplication (claim C2) -/

theorem contains_iff_mem (l : List String) (a : String) : l.contains a = true ↔ a ∈ l := by
  simp

theorem foldl_removeDup_spec (xs : List EventRecord) :
    ∀ (acc : List EventRecord) (seen : List String) (pre : List EventRecord),
      (∀ k, k ∈ seen ↔ ∃ p ∈ pre, generateEventKey p = k) →
      (xs.foldl removeDuplicateEventsStep (acc, seen)).1 = acc ++ specDedupAux pre xs := by
  induction xs with
  | nil =>
    intro acc seen pre _
    simp [specDedupAux]
  | cons e es ih =>
    intro acc seen pre hinv
    rw [List.foldl_cons, specDedupAux]
    have hany : (pre.any fun p => generateEventKey p == generateEventKey e) = true ↔
        ∃ p ∈ pre, generateEventKey p = generateEventKey e := by
      simp [List.any_eq_true]
    by_cases hk : seen.contains (generateEventKey e) = true
    · have hmem : generateEventKey e ∈ seen := (contains_iff_mem seen (generateEventKey e)).mp hk
      have hc : (pre.any fun p => generateEventKey p == generateEventKey e) = true := by
        rw [hany]
        exact (hinv (generateEventKey e)).mp hmem
      rw [if_pos hc]
      have hstep : removeDuplicateEventsStep (acc, seen) e = (acc, seen) := by
        simp [removeDuplicateEventsStep, hmem]
      rw [hstep]
      refine ih acc seen (pre ++ [e]) fun k => ?_
      rw [hinv k]
      constructor
      · rintro ⟨p, hp, hpk⟩
        exact ⟨p, by simp [hp], hpk⟩
      · rintro ⟨p, hp, hpk⟩
        rcases List.mem_append.mp hp with hp | hp
        · exact ⟨p, hp, hpk⟩
        · simp only [List.mem_singleton] at hp
          subst hp
          obtain ⟨q, hq, hqk⟩ := (hinv (generateEventKey p)).mp hmem
          exact ⟨q, hq, by rw [hqk, hpk]⟩
    · have hpre : ¬(pre.any fun p => generateEventKey p == generateEventKey e) = true := by
        rw [hany]
        intro hex
        exact hk ((contains_iff_mem _ _).mpr ((hinv _).mpr hex))
      rw [if_neg hpre]
      have hstep : removeDuplicateEventsStep (acc, seen) e =
          (acc ++ [e], seen ++ [generateEventKey e]) := by
        simp only [removeDuplicateEventsStep]
        rw [if_neg hk]
      rw [hstep]
      rw [ih (acc ++ [e]) (seen ++ [generateEventKey e]) (pre ++ [e]) fun k => ?_]
      · simp
      · simp only [List.mem_append, List.mem_singleton]
        constructor
        · rintro (hks | hke)
          · obtain ⟨p, hp, hpk⟩ := (hinv k).mp hks
            exact ⟨p, Or.inl hp, hpk⟩
          · exact ⟨e, Or.inr rfl, hke.symm⟩
        · rintro ⟨p, hp | hp, hpk⟩
          · exact Or.inl ((hinv k).mpr ⟨p, hp, hpk⟩)
          · subst hp
            exact Or.inr hpk.symm

theorem removeDuplicateEvents_eq_spec (events : List EventRecord) :
    removeDuplicateEvents events = specFirstOccurrences events := by
  rw [removeDuplicateEvents, specFirstOccurrences]
  rw [foldl_removeDup_spec events [] [] [] (fun k => by simp)]
  simp

theorem specDedupAux_props (xs : List EventRecord) :
    ∀ pre : List EventRecord,
      (∀ e ∈ specDedupAux pre xs, ∀ p ∈ pre, generateEventKey p ≠ generateEventKey e) ∧
      List.Pairwise (fun a b => generateEventKey a ≠ generateEventKey b)
        (specDedupAux pre xs) := by
  induction xs with
  | nil => intro pre; simp [specDedupAux]
  | cons e es ih =>
    intro pre
    rw [specDedupAux]
    by_cases hany : (pre.any fun p => generateEventKey p == generateEventKey e) = true
    · rw [if_pos hany]
      obtain ⟨iha, ihb⟩ := ih (pre ++ [e])
      exact ⟨fun x hx p hp => iha x hx p (by simp [hp]), ihb⟩
    · rw [if_neg hany]
      obtain ⟨iha, ihb⟩ := ih (pre ++ [e])
      have hne : ∀ p ∈ pre, generateEventKey p ≠ generateEventKey e := by
        intro p hp heq
        exact hany (List.any_eq_true.mpr ⟨p, hp, by simp [heq]⟩)
      constructor
      · intro x hx p hp
        rcases List.mem_cons.mp hx with hx | hx
        · subst hx; exact hne p hp
        · exact iha x hx p (by simp [hp])
      · rw [List.pairwise_cons]
        exact ⟨fun x hx => iha x hx e (by simp), ihb⟩

theorem specDedupAux_fixed (ys : List EventRecord) :
    ∀ pre : List EventRecord,
      (∀ e ∈ ys, ∀ p ∈ pre, generateEventKey p ≠ generateEventKey e) →
      List.Pairwise (fun a b => generateEventKey a ≠ generateEventKey b) ys →
      specDedupAux pre ys = ys := by
  induction ys with
  | nil => intro pre _ _; rfl
  | cons e es ih =>
    intro pre h1 h2
    rw [specDedupAux]
    have hany : ¬(pre.any fun p => generateEventKey p == generateEventKey e) = true := by
      intro hx
      obtain ⟨p, hp, hpk⟩ := List.any_eq_true.mp hx
      exact h1 e (by simp) p hp (beq_iff_eq.mp hpk)
    rw [if_neg hany]
    congr 1
    apply ih (pre ++ [e])
    · intro x hx p hp
      rcases List.mem_append.mp hp with hp | hp
      · exact h1 x (by simp [hx]) p hp
      · simp only [List.mem_singleton] at hp
        subst hp
        exact (List.pairwise_cons.mp h2).1 x hx
    · exact (List.pairwise_cons.mp h2).2

/-- C2: `removeDuplicateEvents` retains exactly the first occurrence of
each reconciliation key, in the original relative order (it equals the
specification-side `specFirstOccurrences`), and is idempotent. -/
theorem claim_C2 (events : List EventRecord) :
    removeDuplicateEvents events = specFirstOccurrences events ∧
    removeDuplicateEvents (removeDuplicateEvents events) = removeDuplicateEvents events := by
  refine ⟨removeDuplicateEvents_eq_spec events, ?_⟩
  rw [removeDuplicateEvents_eq_spec events,
    removeDuplicateEvents_eq_spec (specFirstOccurrences events)]
  obtain ⟨_, hb⟩ := specDedupAux_props events []
  exact specDedupAux_fixed _ [] (fun x _ p hp => absurd hp (List.not_mem_nil p)) hb

/-! ## Reconciliation filtering (claim C3) -/

/-- C3: `filterEventsToCreate` returns exactly the ordered subsequence of
records whose reconciliation key — the string
`YYYY-MM-DD|lowercased-trimmed-title` — is not in the existing-key set;
two records with equal titles and the same calendar day (whatever their
times of day) have equal keys and are filtered identically. -/
theorem claim_C3 (events : List EventRecord) (existingKeys : List String)
    (e1 e2 : EventRecord) (ht : e1.title = e2.title)
    (hy : jsGetFullYear e1.start = jsGetFullYear e2.start)
    (hm : jsGetMonth e1.start = jsGetMonth e2.start)
    (hd : jsGetDate e1.start = jsGetDate e2.start) :
    filterEventsToCreate events existingKeys =
      events.filter (fun e => !(existingKeys.contains (generateEventKey e))) ∧
    (filterEventsToCreate events existingKeys).Sublist events ∧
    (∀ e, e ∈ filterEventsToCreate events existingKeys ↔
      e ∈ events ∧ generateEventKey e ∉ existingKeys) ∧
    generateEventKey e1 = formatDateKey e1.start ++ "|" ++ jsTrim (jsToLower e1.title) ∧
    generateEventKey e1 = generateEventKey e2 ∧
    (generateEventKey e1 ∈ existingKeys ↔ generateEventKey e2 ∈ existingKeys) := by
  have hkey : generateEventKey e1 = generateEventKey e2 := by
    rw [generateEventKey, generateEventKey, ht, formatDateKey, formatDateKey, hy, hm, hd]
  refine ⟨rfl, List.filter_sublist _, ?_, rfl, hkey, by rw [hkey]⟩
  intro e
  rw [filterEventsToCreate, List.mem_filter]
  simp

/-- C3 witness: two records titled `Standup` on 2024-01-05, one at
10:30 and one at 18:00 UTC, have equal keys and are filtered
identically against a set containing `2024-01-05|standup`. -/
theorem claim_C3_witness :
    filterEventsToCreate [] ["2024-01-05|standup"] =
      ([] : List EventRecord).filter
        (fun e => !(["2024-01-05|standup"].contains (generateEventKey e))) ∧
    (filterEventsToCreate [] ["2024-01-05|standup"]).Sublist [] ∧
    (∀ e, e ∈ filterEventsToCreate [] ["2024-01-05|standup"] ↔
      e ∈ ([] : List EventRecord) ∧ generateEventKey e ∉ ["2024-01-05|standup"]) ∧
    generateEventKey { title := "Standup", start := some 1704450600000 } =
      formatDateKey (some 1704450600000) ++ "|" ++ jsTrim (jsToLower "Standup") ∧
    generateEventKey { title := "Standup", start := some 1704450600000 } =
      generateEventKey { title := "Standup", start := some 1704477600000 } ∧
    (generateEventKey { title := "Standup", start := some 1704450600000 } ∈
        ["2024-01-05|standup"] ↔
      generateEventKey { title := "Standup", start := some 1704477600000 } ∈
        ["2024-01-05|standup"]) :=
  claim_C3 [] ["2024-01-05|standup"]
    { title := "Standup", start := some 1704450600000 }
    { title := "Standup", start := some 1704477600000 }
    (by decide) (by decide) (by decide) (by decide)

/-! ## Record emission at block end (claim C1) -/

theorem processLines_props (ps : List String) :
    ∀ (rest : List String) (evs : List EventRecord) (ev : EventBuilder),
      (∀ l ∈ ps, l ≠ "BEGIN:VEVENT" ∧ l ≠ "END:VEVENT") →
      processLines { events := evs, currentEvent := some ev, inEvent := true }
          (ps ++ "END:VEVENT" :: rest) =
        match accumProps ev ps with
        | none => none
        | some p =>
          processLines { events := evs ++ (finalizeEvent p).toList,
                         currentEvent := none, inEvent := false } rest := by
  induction ps with
  | nil =>
    intro rest evs ev _
    rw [List.nil_append, accumProps]
    rw [processLines]
    have hline : processLine { events := evs, currentEvent := some ev, inEvent := true }
        "END:VEVENT" =
        some { events := evs ++ (finalizeEvent ev).toList,
               currentEvent := none, inEvent := false } := by
      rw [processLine, if_neg (by decide), if_pos ⟨rfl, rfl⟩]
      rfl
    rw [hline]
  | cons l ls ih =>
    intro rest evs ev hps
    have hl := hps l (by simp)
    rw [List.cons_append, processLines, accumProps]
    have hline : processLine { events := evs, currentEvent := some ev, inEvent := true } l =
        (parseEventProperty l ev).map
          (fun ev2 => { events := evs, currentEvent := some ev2, inEvent := true }) := by
      rw [processLine, if_neg hl.1, if_neg (fun h => hl.2 h.1), if_pos ⟨rfl, rfl⟩]
    rw [hline]
    cases hp : parseEventProperty l ev with
    | none => rfl
    | some ev2 =>
      simp only [Option.map_some']
      exact ih rest evs ev2 (fun x hx => hps x (by simp [hx]))

/-- C1: for a `VEVENT` block whose property lines raise no decoder
exception, the parser appends, at the block's `END:VEVENT` line, exactly
the records `(finalizeEvent p).toList` (at most one) for the
accumulated builder `p`, and continues with the rest of the input — so
no error is raised by the block; and a record is emitted if and only if
the accumulated builder holds both a truthy (nonempty) title and a
start.  A block lacking either yields no record. -/
theorem claim_C1 (st : ParseState) (ps rest : List String) (p : EventBuilder)
    (hps : ∀ l ∈ ps, l ≠ "BEGIN:VEVENT" ∧ l ≠ "END:VEVENT")
    (hacc : accumProps {} ps = some p) :
    processLines st ("BEGIN:VEVENT" :: ps ++ "END:VEVENT" :: rest) =
      processLines { events := st.events ++ (finalizeEvent p).toList,
                     currentEvent := none, inEvent := false } rest ∧
    ((finalizeEvent p).isSome ↔ (∃ t, p.title = some t ∧ t ≠ "") ∧ p.start.isSome) := by
  constructor
  · have hcons : processLines st ("BEGIN:VEVENT" :: ps ++ "END:VEVENT" :: rest) =
        match processLine st "BEGIN:VEVENT" with
        | none => none
        | some st2 => processLines st2 (ps ++ "END:VEVENT" :: rest) := rfl
    have hbegin : processLine st "BEGIN:VEVENT" =
        some { st with currentEvent := some {}, inEvent := true } := by
      rw [processLine, if_pos rfl]
    rw [hcons, hbegin]
    have := processLines_props ps rest st.events {} hps
    rw [hacc] at this
    exact this
  · rw [finalizeEvent]
    cases ht : p.title with
    | none => simp
    | some t =>
      cases hs : p.start with
      | none => simp
      | some st0 =>
        by_cases he : t = ""
        · subst he
          simp
        · simp [he]

/-- C1 witness: a block holding a summary and a date-only start emits
exactly its one record at `END:VEVENT`. -/
theorem claim_C1_witness :
    (processLines {} ("BEGIN:VEVENT" :: ["SUMMARY:Standup", "DTSTART;VALUE=DATE:20240105"] ++
        "END:VEVENT" :: []) =
      processLines
        { events := [] ++ (finalizeEvent { title := some "Standup", isAllDay := some true,
                                           start := some (parseIcsDate "20240105") }).toList,
          currentEvent := none, inEvent := false } [] ∧
      ((finalizeEvent { title := some "Standup", isAllDay := some true,
                        start := some (parseIcsDate "20240105") }).isSome ↔
        (∃ t, ({ title := some "Standup", isAllDay := some true,
                 start := some (parseIcsDate "20240105") } : EventBuilder).title =
            some t ∧ t ≠ "") ∧
        ({ title := some "Standup", isAllDay := some true,
           start := some (parseIcsDate "20240105") } : EventBuilder).start.isSome)) :=
  claim_C1 {} ["SUMMARY:Standup", "DTSTART;VALUE=DATE:20240105"] []
    { title := some "Standup", isAllDay := some true,
      start := some (parseIcsDate "20240105") }
    (by decide) (by decide)

/-! ## Retry merge (claim C5) -/

/-- C5: the import pipeline appends the ledger-reconstructed records
strictly after the freshly-eligible records — the suffix is exactly
`getErrorEvents ledgerData`, independent of the existing-key set, so the
ledger records are neither re-filtered nor re-deduplicated against the
fresh batch; and the ledger row
`("Sync", "2024-02-01T10:00:00", "", "FALSE", "", "", "API error")`
reconstructs to exactly one record with title `Sync`, a non-all-day
flag, and no end. -/
theorem claim_C5 (getEvents : JsDate → JsDate → List CalEvent)
    (ledgerData : List (List String)) (content : String) (events : List EventRecord)
    (h : parseIcsContent content = some events) :
    importIcsToCalendar getEvents ledgerData content =
      some (filterEventsToCreate (removeDuplicateEvents events)
          (getExistingCalendarEvents getEvents (removeDuplicateEvents events)) ++
        getErrorEvents ledgerData) ∧
    getErrorEvents
        [["Title", "Start Date", "End Date", "Is All Day", "Description", "Location",
          "Error Message"],
         ["Sync", "2024-02-01T10:00:00", "", "FALSE", "", "", "API error"]] =
      [{ title := "Sync", start := jsDateFromString "2024-02-01T10:00:00",
         isAllDay := false, end_ := none, description := some "", location := some "",
         rowIndex := some 2 }] := by
  constructor
  · rw [importIcsToCalendar, h]
  · decide

/-- C5 witness at the empty ICS content (which parses to no records). -/
theorem claim_C5_witness :
    (importIcsToCalendar (fun _ _ => []) [] "" =
      some (filterEventsToCreate (removeDuplicateEvents [])
          (getExistingCalendarEvents (fun _ _ => []) (removeDuplicateEvents [])) ++
        getErrorEvents []) ∧
    getErrorEvents
        [["Title", "Start Date", "End Date", "Is All Day", "Description", "Location",
          "Error Message"],
         ["Sync", "2024-02-01T10:00:00", "", "FALSE", "", "", "API error"]] =
      [{ title := "Sync", start := jsDateFromString "2024-02-01T10:00:00",
         isAllDay := false, end_ := none, description := some "", location := some "",
         rowIndex := some 2 }]) :=
  claim_C5 (fun _ _ => []) [] "" [] (by decide)

/-! ## Date-window inference (claim C4) -/

theorem daysFromCivil_pred (a b c : Int) :
    daysFromCivil a b (c - 1) = daysFromCivil a b c - 1 := by
  simp only [daysFromCivil]
  split_ifs <;> omega

theorem daysFromCivil_succ (a b c : Int) :
    daysFromCivil a b (c + 1) = daysFromCivil a b c + 1 := by
  simp only [daysFromCivil]
  split_ifs <;> omega

theorem window_start_eq (mn : Int) :
    jsSetHours (jsSetDate (some mn) ((jsGetDate (some mn)).map (· - 1))) 0 0 0 0 =
      some (startOfDayMs mn - 86400000) := by
  have h2 : daysFromCivil (civilFromDays (mn / 86400000)).1 (civilFromDays (mn / 86400000)).2.1
      ((civilFromDays (mn / 86400000)).2.2 - 1) = mn / 86400000 - 1 := by
    rw [daysFromCivil_pred, daysFromCivil_civilFromDays]
  have hmod : ((mn / 86400000 - 1) * 86400000 + mn % 86400000) % 86400000 =
      mn % 86400000 := by
    rw [Int.add_comm, Int.add_mul_emod_self]
    exact Int.emod_emod_of_dvd mn dvd_rfl
  simp only [jsGetDate, jsSetDate, jsSetHours, startOfDayMs]
  simp only [Option.map_some']
  simp only [h2, Option.some.injEq]
  omega

theorem window_end_eq (mx : Int) :
    jsSetHours (jsSetDate (some mx) ((jsGetDate (some mx)).map (· + 1))) 23 59 59 999 =
      some (startOfDayMs mx + 86400000 + 86399999) := by
  have h2 : daysFromCivil (civilFromDays (mx / 86400000)).1 (civilFromDays (mx / 86400000)).2.1
      ((civilFromDays (mx / 86400000)).2.2 + 1) = mx / 86400000 + 1 := by
    rw [daysFromCivil_succ, daysFromCivil_civilFromDays]
  have hmod : ((mx / 86400000 + 1) * 86400000 + mx % 86400000) % 86400000 =
      mx % 86400000 := by
    rw [Int.add_comm, Int.add_mul_emod_self]
    exact Int.emod_emod_of_dvd mx dvd_rfl
  simp only [jsGetDate, jsSetDate, jsSetHours, startOfDayMs]
  simp only [Option.map_some']
  simp only [h2, Option.some.injEq]
  omega

theorem foldl_dateRange_minmax (xs : List EventRecord) :
    ∀ a b : Int, (∀ e ∈ xs, e.start.isSome) →
      ∃ mn mx : Int,
        xs.foldl dateRangeStep (some a, some b) = (some mn, some mx) ∧
        (mn = a ∨ some mn ∈ xs.map EventRecord.start) ∧
        (mx = b ∨ some mx ∈ xs.map EventRecord.start) ∧
        mn ≤ a ∧ b ≤ mx ∧
        (∀ t : Int, some t ∈ xs.map EventRecord.start → mn ≤ t ∧ t ≤ mx) := by
  induction xs with
  | nil =>
    intro a b _
    exact ⟨a, b, rfl, Or.inl rfl, Or.inl rfl, le_refl a, le_refl b, by simp⟩
  | cons e es ih =>
    intro a b hv
    obtain ⟨v, hvs⟩ := Option.isSome_iff_exists.mp (hv e (by simp))
    rw [List.foldl_cons]
    have hstep : dateRangeStep (some a, some b) e =
        (some (if v < a then v else a), some (if b < v then v else b)) := by
      simp only [dateRangeStep, hvs, jsDateLt, jsDateGt]
      simp only [decide_eq_true_eq]
      by_cases h1 : v < a <;> by_cases h2 : b < v <;> simp [h1, h2]
    rw [hstep]
    obtain ⟨mn, mx, hfold, hmn, hmx, hmna, hbmx, hall⟩ :=
      ih (if v < a then v else a) (if b < v then v else b) (fun x hx => hv x (by simp [hx]))
    have hle1 : (if v < a then v else a) ≤ a := by split_ifs <;> omega
    have hle2 : (if v < a then v else a) ≤ v := by split_ifs <;> omega
    have hle3 : b ≤ (if b < v then v else b) := by split_ifs <;> omega
    have hle4 : v ≤ (if b < v then v else b) := by split_ifs <;> omega
    refine ⟨mn, mx, hfold, ?_, ?_, by omega, by omega, ?_⟩
    · rcases hmn with h | h
      · by_cases hva : v < a
        · rw [if_pos hva] at h
          right
          simp [hvs, h]
        · rw [if_neg hva] at h
          exact Or.inl h
      · right
        simp only [List.map_cons, List.mem_cons]
        exact Or.inr h
    · rcases hmx with h | h
      · by_cases hbv : b < v
        · rw [if_pos hbv] at h
          right
          simp [hvs, h]
        · rw [if_neg hbv] at h
          exact Or.inl h
      · right
        simp only [List.map_cons, List.mem_cons]
        exact Or.inr h
    · intro t ht
      simp only [List.map_cons, List.mem_cons] at ht
      rcases ht with ht | ht
      · rw [hvs] at ht
        have : t = v := Option.some.inj ht
        omega
      · exact hall t ht

/-- C4: for a nonempty record list with valid starts, the inferred
window runs from the start of the day one day before the minimum start
to the end (23:59:59.999) of the day one day after the maximum start;
for the empty list no window is produced (`null`/`null`), the calendar
store is not consulted (the key set is `[]` for every store), and
filtering against the empty key set keeps every record. -/
theorem claim_C4 (events : List EventRecord) (hne : events ≠ [])
    (hv : ∀ e ∈ events, e.start.isSome) :
    (∃ mn mx : Int,
      some mn ∈ events.map EventRecord.start ∧
      some mx ∈ events.map EventRecord.start ∧
      (∀ t : Int, some t ∈ events.map EventRecord.start → mn ≤ t ∧ t ≤ mx) ∧
      getEventDateRange events =
        (some (some (startOfDayMs mn - 86400000)),
         some (some (startOfDayMs mx + 86400000 + 86399999)))) ∧
    getEventDateRange ([] : List EventRecord) = (none, none) ∧
    (∀ getEvents, getExistingCalendarEvents getEvents ([] : List EventRecord) = []) ∧
    (∀ records : List EventRecord, filterEventsToCreate records [] = records) := by
  refine ⟨?_, rfl, fun getEvents => rfl, fun records => ?_⟩
  · cases events with
    | nil => exact absurd rfl hne
    | cons e0 es =>
      obtain ⟨v0, hv0⟩ := Option.isSome_iff_exists.mp (hv e0 (by simp))
      obtain ⟨mn, mx, hfold, hmn, hmx, hmna, hbmx, hall⟩ :=
        foldl_dateRange_minmax (e0 :: es) v0 v0 hv
      have hrange : getEventDateRange (e0 :: es) =
          (some (jsSetHours (jsSetDate (some mn) ((jsGetDate (some mn)).map (· - 1))) 0 0 0 0),
           some (jsSetHours (jsSetDate (some mx) ((jsGetDate (some mx)).map (· + 1)))
             23 59 59 999)) := by
        have hdef : getEventDateRange (e0 :: es) =
            (some (jsSetHours (jsSetDate ((e0 :: es).foldl dateRangeStep
                (e0.start, e0.start)).1
              ((jsGetDate ((e0 :: es).foldl dateRangeStep (e0.start, e0.start)).1).map
                (· - 1))) 0 0 0 0),
             some (jsSetHours (jsSetDate ((e0 :: es).foldl dateRangeStep
                (e0.start, e0.start)).2
              ((jsGetDate ((e0 :: es).foldl dateRangeStep (e0.start, e0.start)).2).map
                (· + 1))) 23 59 59 999)) := rfl
        rw [hdef, hv0, hfold]
      have hv0mem : some mn = e0.start ∨ some mn ∈ (e0 :: es).map EventRecord.start := by
        rcases hmn with h | h
        · left; rw [h, hv0]
        · right; exact h
      refine ⟨mn, mx, ?_, ?_, hall, ?_⟩
      · rcases hv0mem with h | h
        · simp [h]
        · exact h
      · rcases hmx with h | h
        · have hx : some mx = e0.start := by rw [h, hv0]
          simp [hx]
        · exact h
      · rw [hrange, window_start_eq, window_end_eq]
  · rw [filterEventsToCreate, List.filter_eq_self]
    intro e _
    simp

theorem claim_C4_witness :
    (∃ mn mx : Int,
      some mn ∈ [{ title := "A", start := some 1704450600000 },
        ({ title := "B", start := some 1704537000000 } : EventRecord)].map
          EventRecord.start ∧
      some mx ∈ [{ title := "A", start := some 1704450600000 },
        ({ title := "B", start := some 1704537000000 } : EventRecord)].map
          EventRecord.start ∧
      (∀ t : Int, some t ∈ [{ title := "A", start := some 1704450600000 },
          ({ title := "B", start := some 1704537000000 } : EventRecord)].map
            EventRecord.start → mn ≤ t ∧ t ≤ mx) ∧
      getEventDateRange [{ title := "A", start := some 1704450600000 },
          ({ title := "B", start := some 1704537000000 } : EventRecord)] =
        (some (some (startOfDayMs mn - 86400000)),
         some (some (startOfDayMs mx + 86400000 + 86399999)))) ∧
    getEventDateRange ([] : List EventRecord) = (none, none) ∧
    (∀ getEvents, getExistingCalendarEvents getEvents ([] : List EventRecord) = []) ∧
    (∀ records : List EventRecord, filterEventsToCreate records [] = records) :=
  claim_C4 [{ title := "A", start := some 1704450600000 },
    ({ title := "B", start := some 1704537000000 } : EventRecord)]
    (by decide) (by decide)

/-! ## UTC token round-trip (claim C6) -/

theorem padDigits_length (w : Nat) : ∀ n : Nat, (padDigits w n).length = w := by
  induction w with
  | zero => intro n; rfl
  | succ w ih => intro n; simp [padDigits, ih]

theorem padDigits_mem (w : Nat) : ∀ (n : Nat), ∀ c ∈ padDigits w n,
    ∃ k, k < 10 ∧ c = digitChar k := by
  induction w with
  | zero => intro n c hc; simp [padDigits] at hc
  | succ w ih =>
    intro n c hc
    simp only [padDigits, List.mem_append, List.mem_singleton] at hc
    rcases hc with hc | hc
    · exact ih (n / 10) c hc
    · exact ⟨n % 10, Nat.mod_lt n (by norm_num), hc⟩

theorem padDigits_ne_nil (w n : Nat) (h : 0 < w) : padDigits w n ≠ [] := by
  intro he
  have hl := padDigits_length w n
  rw [he] at hl
  simp at hl
  omega

theorem digit_char_props (k : Nat) (h : k < 10) :
    digitVal (digitChar k) = some k ∧ isJsWhitespace (digitChar k) = false ∧
      digitChar k ≠ 'T' ∧ digitChar k ≠ 'Z' ∧ digitChar k ≠ '-' ∧ digitChar k ≠ '+' := by
  interval_cases k <;>
    exact ⟨by decide, by decide, by decide, by decide, by decide, by decide⟩

theorem digitsVal_foldl_padDigits (w : Nat) : ∀ n acc : Nat,
    (padDigits w n).foldl (fun acc c => acc * 10 + (digitVal c).getD 0) acc =
      acc * 10 ^ w + n % 10 ^ w := by
  induction w with
  | zero => intro n acc; simp [padDigits, Nat.mod_one]
  | succ w ih =>
    intro n acc
    rw [padDigits, List.foldl_append, ih (n / 10) acc]
    have hd : (digitVal (digitChar (n % 10))).getD 0 = n % 10 := by
      rw [(digit_char_props (n % 10) (Nat.mod_lt n (by norm_num))).1]
      rfl
    simp only [List.foldl_cons, List.foldl_nil, hd]
    have hmod : n % 10 ^ (w + 1) = n % 10 + 10 * (n / 10 % 10 ^ w) := by
      rw [pow_succ, mul_comm (10 ^ w) 10]
      exact Nat.mod_mul
    rw [hmod, pow_succ]
    ring

theorem digitsVal_padDigits (w n : Nat) (h : n < 10 ^ w) :
    digitsVal (padDigits w n) = n := by
  rw [digitsVal, digitsVal_foldl_padDigits]
  simp [Nat.mod_eq_of_lt h]

theorem dropWhile_none (p : Char → Bool) (l : List Char)
    (h : ∀ c ∈ l, p c = false) : l.dropWhile p = l := by
  cases l with
  | nil => rfl
  | cons x xs => simp [List.dropWhile_cons, h x (by simp)]

theorem takeWhile_all (p : Char → Bool) (l : List Char)
    (h : ∀ c ∈ l, p c = true) : l.takeWhile p = l := by
  induction l with
  | nil => rfl
  | cons x xs ih =>
    simp [List.takeWhile_cons, h x (by simp), ih (fun c hc => h c (by simp [hc]))]

theorem jsParseInt_digits (l : List Char) (hne : l ≠ [])
    (hd : ∀ c ∈ l, ∃ k, k < 10 ∧ c = digitChar k) :
    jsParseInt (String.mk l) = some ((digitsVal l : Nat) : Int) := by
  have hnws : ∀ c ∈ l, isJsWhitespace c = false := by
    intro c hc
    obtain ⟨k, hk, hck⟩ := hd c hc
    rw [hck]
    exact (digit_char_props k hk).2.1
  have hdig : ∀ c ∈ l, ((digitVal c).isSome) = true := by
    intro c hc
    obtain ⟨k, hk, hck⟩ := hd c hc
    rw [hck, (digit_char_props k hk).1]
    rfl
  have hpp : parseDigitPrefix l = some (digitsVal l) := by
    rw [parseDigitPrefix]
    rw [takeWhile_all _ l hdig]
    cases l with
    | nil => exact absurd rfl hne
    | cons x xs => simp
  cases l with
  | nil => exact absurd rfl hne
  | cons x xs =>
    obtain ⟨k, hk, hx⟩ := hd x (by simp)
    have hxm : x ≠ '-' := by rw [hx]; exact (digit_char_props k hk).2.2.2.2.1
    have hxp : x ≠ '+' := by rw [hx]; exact (digit_char_props k hk).2.2.2.2.2
    have hdw : (String.mk (x :: xs)).data.dropWhile isJsWhitespace = x :: xs :=
      dropWhile_none _ _ hnws
    rw [jsParseInt, hdw]
    simp only [List.head?_cons, Option.some.injEq]
    rw [if_neg hxm, if_neg hxp, hpp]
    rfl

theorem splitOnChar_no_sep (c : Char) (l : List Char) (h : c ∉ l) :
    splitOnChar c l = [l] := by
  induction l with
  | nil => rfl
  | cons x xs ih =>
    have hx : x ≠ c := fun he => h (by simp [he])
    rw [splitOnChar, ih (fun hm => h (by simp [hm]))]
    simp [hx]

theorem splitOnChar_sep (c : Char) (dl tl : List Char) (hd : c ∉ dl) (ht : c ∉ tl) :
    splitOnChar c (dl ++ c :: tl) = [dl, tl] := by
  induction dl with
  | nil =>
    rw [List.nil_append, splitOnChar, splitOnChar_no_sep c tl ht]
    simp
  | cons x xs ih =>
    have hx : x ≠ c := fun he => hd (by simp [he])
    rw [List.cons_append, splitOnChar, ih (fun hm => hd (by simp [hm]))]
    simp [hx]

theorem jsSubstring_mk_prefix (seg rest : List Char) (j : Nat) (hj : seg.length = j) :
    jsSubstring (String.mk (seg ++ rest)) 0 j = String.mk seg := by
  rw [jsSubstring]
  have h1 : max 0 j = j := Nat.max_eq_right (Nat.zero_le j)
  have h2 : min 0 j = 0 := Nat.min_eq_left (Nat.zero_le j)
  rw [h1, h2]
  subst hj
  show String.mk (((seg ++ rest).take seg.length).drop 0) = String.mk seg
  rw [List.take_left, List.drop_zero]

theorem jsSubstring_mk_extract (pre seg rest : List Char) (i j : Nat)
    (hp : pre.length = i) (hj : i + seg.length = j) :
    jsSubstring (String.mk (pre ++ (seg ++ rest))) i j = String.mk seg := by
  have hij : i ≤ j := by omega
  rw [jsSubstring]
  rw [Nat.max_eq_right hij, Nat.min_eq_left hij]
  subst hp
  subst hj
  show String.mk (((pre ++ (seg ++ rest)).take (pre.length + seg.length)).drop
    pre.length) = String.mk seg
  rw [List.take_add, List.drop_left, List.take_left, List.take_left, List.drop_left]

theorem not_mem_padDigits (c : Char) (w n : Nat)
    (hc : ∀ k, k < 10 → digitChar k ≠ c) : c ∉ padDigits w n := by
  intro hm
  obtain ⟨k, hk, hck⟩ := padDigits_mem w n c hm
  exact hc k hk hck.symm

theorem icsUtcToken_data (y m d h mi s : Nat) :
    (icsUtcToken y m d h mi s).data =
      (padDigits 4 y ++ (padDigits 2 m ++ padDigits 2 d)) ++
        'T' :: (padDigits 2 h ++ (padDigits 2 mi ++ (padDigits 2 s ++ ['Z']))) := by
  simp [icsUtcToken, List.append_assoc]

theorem parseIcsDateTime_token (y m d h mi s : Nat) (hy : y < 10000) (hm : m < 100)
    (hd : d < 100) (hh : h < 100) (hmi : mi < 100) (hs : s < 100) :
    parseIcsDateTime (icsUtcToken y m d h mi s) =
      some (jsMakeDate (some (y : Int)) (some ((m : Int) - 1)) (some (d : Int))
        (some (h : Int)) (some (mi : Int)) (some (s : Int))) := by
  have hpow : ((10 : Nat) ^ 4 = 10000) ∧ ((10 : Nat) ^ 2 = 100) := by norm_num
  have hdigT : ∀ k, k < 10 → digitChar k ≠ 'T' := fun k hk =>
    (digit_char_props k hk).2.2.1
  have hTnd : 'T' ∉ padDigits 4 y ++ (padDigits 2 m ++ padDigits 2 d) := by
    simp only [List.mem_append]
    push_neg
    exact ⟨not_mem_padDigits _ _ _ hdigT, not_mem_padDigits _ _ _ hdigT,
      not_mem_padDigits _ _ _ hdigT⟩
  have hTnt : 'T' ∉ padDigits 2 h ++ (padDigits 2 mi ++ (padDigits 2 s ++ ['Z'])) := by
    simp only [List.mem_append, List.mem_singleton]
    push_neg
    exact ⟨not_mem_padDigits _ _ _ hdigT, not_mem_padDigits _ _ _ hdigT,
      not_mem_padDigits _ _ _ hdigT, by decide⟩
  have hsplit : jsSplit (icsUtcToken y m d h mi s) 'T' =
      [String.mk (padDigits 4 y ++ (padDigits 2 m ++ padDigits 2 d)),
       String.mk (padDigits 2 h ++ (padDigits 2 mi ++ (padDigits 2 s ++ ['Z'])))] := by
    rw [jsSplit, icsUtcToken_data, splitOnChar_sep 'T' _ _ hTnd hTnt]
    rfl
  have hsub04 : jsSubstring
      (String.mk (padDigits 4 y ++ (padDigits 2 m ++ padDigits 2 d))) 0 4 =
      String.mk (padDigits 4 y) :=
    jsSubstring_mk_prefix _ _ 4 (padDigits_length 4 y)
  have hsub46 : jsSubstring
      (String.mk (padDigits 4 y ++ (padDigits 2 m ++ padDigits 2 d))) 4 6 =
      String.mk (padDigits 2 m) :=
    jsSubstring_mk_extract _ _ _ 4 6 (padDigits_length 4 y)
      (by simp [padDigits_length])
  have hshape1 : padDigits 4 y ++ (padDigits 2 m ++ padDigits 2 d) =
      (padDigits 4 y ++ padDigits 2 m) ++ (padDigits 2 d ++ []) := by
    simp [List.append_assoc]
  have hsub68 : jsSubstring
      (String.mk (padDigits 4 y ++ (padDigits 2 m ++ padDigits 2 d))) 6 8 =
      String.mk (padDigits 2 d) := by
    rw [hshape1]
    exact jsSubstring_mk_extract _ _ _ 6 8 (by simp [padDigits_length])
      (by simp [padDigits_length])
  have hsub02 : jsSubstring
      (String.mk (padDigits 2 h ++ (padDigits 2 mi ++ (padDigits 2 s ++ ['Z'])))) 0 2 =
      String.mk (padDigits 2 h) :=
    jsSubstring_mk_prefix _ _ 2 (padDigits_length 2 h)
  have hsub24 : jsSubstring
      (String.mk (padDigits 2 h ++ (padDigits 2 mi ++ (padDigits 2 s ++ ['Z'])))) 2 4 =
      String.mk (padDigits 2 mi) :=
    jsSubstring_mk_extract _ _ _ 2 4 (padDigits_length 2 h)
      (by simp [padDigits_length])
  have hshape2 : padDigits 2 h ++ (padDigits 2 mi ++ (padDigits 2 s ++ ['Z'])) =
      (padDigits 2 h ++ padDigits 2 mi) ++ (padDigits 2 s ++ ['Z']) := by
    simp [List.append_assoc]
  have hsub46t : jsSubstring
      (String.mk (padDigits 2 h ++ (padDigits 2 mi ++ (padDigits 2 s ++ ['Z'])))) 4 6 =
      String.mk (padDigits 2 s) := by
    rw [hshape2]
    exact jsSubstring_mk_extract _ _ _ 4 6 (by simp [padDigits_length])
      (by simp [padDigits_length])
  have hvy : jsParseInt (String.mk (padDigits 4 y)) = some ((y : Nat) : Int) := by
    rw [jsParseInt_digits _ (padDigits_ne_nil 4 y (by norm_num)) (padDigits_mem 4 y),
      digitsVal_padDigits 4 y (by omega)]
  have hvm : jsParseInt (String.mk (padDigits 2 m)) = some ((m : Nat) : Int) := by
    rw [jsParseInt_digits _ (padDigits_ne_nil 2 m (by norm_num)) (padDigits_mem 2 m),
      digitsVal_padDigits 2 m (by omega)]
  have hvd : jsParseInt (String.mk (padDigits 2 d)) = some ((d : Nat) : Int) := by
    rw [jsParseInt_digits _ (padDigits_ne_nil 2 d (by norm_num)) (padDigits_mem 2 d),
      digitsVal_padDigits 2 d (by omega)]
  have hvh : jsParseInt (String.mk (padDigits 2 h)) = some ((h : Nat) : Int) := by
    rw [jsParseInt_digits _ (padDigits_ne_nil 2 h (by norm_num)) (padDigits_mem 2 h),
      digitsVal_padDigits 2 h (by omega)]
  have hvmi : jsParseInt (String.mk (padDigits 2 mi)) = some ((mi : Nat) : Int) := by
    rw [jsParseInt_digits _ (padDigits_ne_nil 2 mi (by norm_num)) (padDigits_mem 2 mi),
      digitsVal_padDigits 2 mi (by omega)]
  have hvs : jsParseInt (String.mk (padDigits 2 s)) = some ((s : Nat) : Int) := by
    rw [jsParseInt_digits _ (padDigits_ne_nil 2 s (by norm_num)) (padDigits_mem 2 s),
      digitsVal_padDigits 2 s (by omega)]
  rw [parseIcsDateTime]
  simp only [hsplit, List.getElem?_cons_succ, List.getElem?_cons_zero, List.headD_cons]
  rw [ite_self]
  rw [hsub04, hsub46, hsub68, hsub02, hsub24, hsub46t, hvy, hvm, hvd, hvh, hvmi, hvs]
  simp only [Option.map_some']

theorem daysInMonth_le (y m : Int) : daysInMonth y m ≤ 31 := by
  rw [daysInMonth]
  split_ifs <;> omega

theorem jsMakeDate_utc (y m d h mi s : Int) (hy : 100 ≤ y) (hm1 : 1 ≤ m) (hm2 : m ≤ 12)
    (hd1 : 1 ≤ d) (hd2 : d ≤ daysInMonth y m) (hh0 : 0 ≤ h) (hh : h ≤ 23)
    (hmi0 : 0 ≤ mi) (hmi : mi ≤ 59) (hs0 : 0 ≤ s) (hs : s ≤ 59) :
    ∃ t : Int,
      jsMakeDate (some y) (some (m - 1)) (some d) (some h) (some mi) (some s) =
        some t ∧
      jsGetFullYear (some t) = some y ∧ jsGetMonth (some t) = some (m - 1) ∧
      jsGetDate (some t) = some d ∧ jsGetHours (some t) = some h ∧
      jsGetMinutes (some t) = some mi ∧ jsGetSeconds (some t) = some s := by
  have hq : ¬(0 ≤ y ∧ y ≤ 99) := by omega
  have hdiv : (m - 1) / 12 = 0 := by omega
  have hmod : (m - 1) % 12 = m - 1 := by omega
  have hmk : jsMakeDate (some y) (some (m - 1)) (some d) (some h) (some mi) (some s) =
      some (daysFromCivil y m d * 86400000 +
        (h * 3600000 + mi * 60000 + s * 1000)) := by
    rw [jsMakeDate]
    rw [if_neg hq, hdiv, hmod]
    rw [add_zero, sub_add_cancel]
    rw [Option.some.injEq]
    ring
  have hdays : (daysFromCivil y m d * 86400000 +
      (h * 3600000 + mi * 60000 + s * 1000)) / 86400000 = daysFromCivil y m d := by
    omega
  have hciv := civilFromDays_daysFromCivil y m d (by omega) hm2 hd1 hd2
  refine ⟨daysFromCivil y m d * 86400000 + (h * 3600000 + mi * 60000 + s * 1000),
    hmk, ?_, ?_, ?_, ?_, ?_, ?_⟩
  · rw [jsGetFullYear, Option.map_some', hdays, hciv]
  · rw [jsGetMonth, Option.map_some', hdays, hciv]
  · rw [jsGetDate, Option.map_some', hdays, hciv]
  · rw [jsGetHours, Option.map_some', Option.some.injEq]
    omega
  · rw [jsGetMinutes, Option.map_some', Option.some.injEq]
    omega
  · rw [jsGetSeconds, Option.map_some', Option.some.injEq]
    omega

/-- C6 counterexample: the claim fails as stated for in-range tokens with a
year below 100.  The token `00500101T120000Z` has literal year field 50, but
the decoder (through the `Date.UTC` two-digit-year rule) produces an instant
whose UTC year is 1950. -/
theorem claim_C6_counterexample :
    (parseIcsDateTime "00500101T120000Z").map jsGetFullYear = some (some 1950) ∧
    (1950 : Int) ≠ 50 := by
  constructor
  · decide
  · decide

/-- C6 (amended): for every token `YYYYMMDDTHHMMSSZ` whose fields are in
calendar range AND whose year field is at least 100 (years 0-99 are shifted
to 1900-1999 by the two-digit-year rule of the `Date` constructor), the
decoded instant's UTC year, month (0-based `getMonth` index), day, hour,
minute and second equal the token's literal fields. -/
theorem claim_C6 (y m d h mi s : Nat) (hy1 : 100 ≤ y) (hy2 : y ≤ 9999)
    (hm1 : 1 ≤ m) (hm2 : m ≤ 12) (hd1 : 1 ≤ d)
    (hd2 : (d : Int) ≤ daysInMonth (y : Int) (m : Int))
    (hh : h ≤ 23) (hmi : mi ≤ 59) (hs : s ≤ 59) :
    ∃ t : Int,
      parseIcsDateTime (icsUtcToken y m d h mi s) = some (some t) ∧
      jsGetFullYear (some t) = some (y : Int) ∧
      jsGetMonth (some t) = some ((m : Int) - 1) ∧
      jsGetDate (some t) = some (d : Int) ∧
      jsGetHours (some t) = some (h : Int) ∧
      jsGetMinutes (some t) = some (mi : Int) ∧
      jsGetSeconds (some t) = some (s : Int) := by
  obtain ⟨t, hmk, hrest⟩ := jsMakeDate_utc (y : Int) (m : Int) (d : Int) (h : Int)
    (mi : Int) (s : Int) (by exact_mod_cast hy1) (by exact_mod_cast hm1)
    (by exact_mod_cast hm2) (by exact_mod_cast hd1) hd2
    (by positivity) (by exact_mod_cast hh) (by positivity) (by exact_mod_cast hmi)
    (by positivity) (by exact_mod_cast hs)
  have hdm := daysInMonth_le (y : Int) (m : Int)
  refine ⟨t, ?_, hrest⟩
  rw [parseIcsDateTime_token y m d h mi s (by omega) (by omega) (by omega) (by omega)
    (by omega) (by omega), hmk]

theorem claim_C6_witness :
    ∃ t : Int,
      parseIcsDateTime (icsUtcToken 2024 1 5 10 30 0) = some (some t) ∧
      jsGetFullYear (some t) = some ((2024 : Nat) : Int) ∧
      jsGetMonth (some t) = some (((1 : Nat) : Int) - 1) ∧
      jsGetDate (some t) = some ((5 : Nat) : Int) ∧
      jsGetHours (some t) = some ((10 : Nat) : Int) ∧
      jsGetMinutes (some t) = some ((30 : Nat) : Int) ∧
      jsGetSeconds (some t) = some ((0 : Nat) : Int) :=
  claim_C6 2024 1 5 10 30 0 (by decide) (by decide) (by decide) (by decide)
    (by decide) (by decide) (by decide) (by decide) (by decide)

end IcsImport
